import Mathlib

/-!
Verification development for the shoppster-enrichment backend.

This file gives a shallow Lean embedding of the extraction / fusion /
validation subsystem of the repository (the survivorship merge engine,
document deduplication, deterministic image filtering, gap-fill loop,
unit normalization and the deterministic validation corrections, and the
pipeline graph), translated from the Python sources under
`backend/`, and proves or refutes the frozen specification claims
about them.

Modelling conventions:
- Python numbers (`int` / `float`) are modelled as `Int` / `ℚ`.  Python
  `round(x, k)` is modelled as exact half-even rounding of the rational
  value at `k` decimal places; the cases where binary floating point
  makes Python's result differ (ties that are not exactly representable)
  are outside the inputs used by any theorem below.
- Python `None` is `Option.none`; dynamic `str|float|int` values are the
  inductive `FieldValue`.
- Python string methods `.lower()` / `.strip()` are modelled with
  `strLower` / `strTrim` below (ASCII case folding; the table keys
  relevant below are ASCII or already lower case).
- `float(value)` applied to a non-numeric string raises in Python; the
  embedding models the conversion as an `Option` and the raising /
  except paths as the `none` branch.  No theorem below exercises a
  string-typed weight.
- In-place mutation of a pydantic model is modelled by returning the
  updated record.
-/

namespace Shoppster

set_option maxRecDepth 16384

/-- Confidence tiers of `schemas.EnrichedField.confidence`
(`official > authorized > third_party > inferred > not_found`). -/
inductive Confidence where
  | official
  | authorized
  | third_party
  | inferred
  | not_found
deriving DecidableEq, Repr, Inhabited

/-- The dynamic `str | float | int` type of `EnrichedField.value`. -/
inductive FieldValue where
  | s (x : String)
  | f (x : ℚ)
  | i (x : Int)
deriving DecidableEq, Repr, Inhabited

/-- Python `str.lower()` (ASCII case folding; the table keys below are
ASCII or already lower case).  Implemented on the character list so
that concrete instances evaluate inside the kernel. -/
def strLower (s : String) : String := String.mk (s.toList.map Char.toLower)

/-- Python regex `\s` / `str.strip()` whitespace over the relevant
ASCII whitespace characters. -/
def isWsChar (c : Char) : Bool :=
  c = ' ' || c = '\t' || c = '\n' || c = '\r' || c = '\x0b' || c = '\x0c'

/-- Strip leading and trailing whitespace from a character list. -/
def trimChars (l : List Char) : List Char :=
  ((l.dropWhile isWsChar).reverse.dropWhile isWsChar).reverse

/-- Python `str.strip()`. -/
def strTrim (s : String) : String := String.mk (trimChars s.toList)

/-- Decimal rendering of a rational: Python `str(float)` for the
terminating-decimal rationals that arise from JSON floats
(`str(2.3) = "2.3"`, `str(2.0) = "2.0"`, `str(0.05) = "0.05"`). -/
def decimalStr (q : ℚ) : String :=
  match (List.range 40).find? (fun k => 10 ^ k % q.den = 0) with
  | some k =>
    let sign := if q.num < 0 then "-" else ""
    let a := q.num.natAbs * (10 ^ k / q.den)
    if k = 0 then sign ++ toString a ++ ".0"
    else
      let digits := toString a
      let padded :=
        String.mk (List.replicate (k + 1 - digits.length) '0') ++ digits
      let ip := String.mk (padded.toList.take (padded.length - k))
      let fracD := padded.toList.drop (padded.length - k)
      let fracTrim := (fracD.reverse.dropWhile (fun c => c = '0')).reverse
      let frac := if fracTrim.isEmpty then "0" else String.mk fracTrim
      sign ++ ip ++ "." ++ frac
  | none => toString q.num ++ "/" ++ toString q.den

/-- Python `str(value)` on a `str | float | int` value. -/
def pyStr : FieldValue → String
  | .s x => x
  | .f x => decimalStr x
  | .i x => toString x

/-- Python `str(value)` on an optional value (`str(None) = "None"`). -/
def pyStrOpt : Option FieldValue → String
  | none => "None"
  | some v => pyStr v

/-- Python `float(value)` on a `str | float | int` value; the
string-parsing (and raising) branch is modelled as `none`. -/
def toRat? : FieldValue → Option ℚ
  | .s _ => none
  | .f x => some x
  | .i x => some (x : ℚ)

/-- `schemas.EnrichedField`: the confidence-tagged atomic data point. -/
structure EnrichedField where
  value : Option FieldValue := none
  unit : Option String := none
  source_url : Option String := none
  confidence : Confidence := .not_found
  notes : Option String := none
deriving DecidableEq, Repr, Inhabited

/-- The spec invariant: a field with null value carries tier `not_found`. -/
def invariantEF (f : EnrichedField) : Prop :=
  f.value = none → f.confidence = .not_found

instance (f : EnrichedField) : Decidable (invariantEF f) := by
  unfold invariantEF; infer_instance

/-- First-seen-order deduplication (the element set of a Python `set`,
listed in first-insertion order; also Python dict key order). -/
def dedupFS (seen : List String) : List String → List String
  | [] => []
  | a :: rest =>
    if a ∈ seen then dedupFS seen rest
    else a :: dedupFS (a :: seen) rest

/-- The "Confirmed by N sources" annotation of `_pick_from_tier`. -/
def confirmedNote (n : Nat) : String :=
  "Confirmed by " ++ toString n ++ " sources"

/-- The "Sources disagree: ..." annotation of `_pick_from_tier`.  The
Python code joins a `set` of value strings; the embedding lists the
distinct values in first-seen order (one fixed iteration order of that
set). -/
def disagreeNote (vals : List String) : String :=
  "Sources disagree: " ++ String.intercalate ", " vals

/-- `_pick_from_tier` inside `extract._pick_best_field`: prefer
multi-source agreement, otherwise take the first candidate. -/
def pickFromTier (tier : List EnrichedField) : EnrichedField :=
  match tier with
  | [] => {}
  | t :: rest =>
    if rest.isEmpty then t
    else
      let values := dedupFS [] ((t :: rest).map (fun c => pyStrOpt c.value))
      if values.length = 1 then
        { t with notes := some (confirmedNote (t :: rest).length) }
      else
        { t with notes := some (disagreeNote values) }

/-- The surviving candidates of `_pick_best_field`: non-null value and
tier other than `not_found`. -/
def survivors (fields : List EnrichedField) : List EnrichedField :=
  fields.filter
    (fun f => f.value.isSome && f.confidence ≠ Confidence.not_found)

/-- The sub-list of candidates at one tier, in input order. -/
def tierList (t : Confidence) (candidates : List EnrichedField) :
    List EnrichedField :=
  candidates.filter (fun f => f.confidence = t)

/-- `extract._pick_best_field`: survivorship logic for a single field
across multiple sources. -/
def pick_best_field (fields : List EnrichedField) : EnrichedField :=
  let candidates := survivors fields
  if candidates.isEmpty then {}
  else
    let official := tierList .official candidates
    let authorized := tierList .authorized candidates
    let third_party := tierList .third_party candidates
    let inferred := tierList .inferred candidates
    if !official.isEmpty then official.headD {}
    else if !authorized.isEmpty then pickFromTier authorized
    else if !third_party.isEmpty then pickFromTier third_party
    else if !inferred.isEmpty then inferred.headD {}
    else {}

/-- `schemas.DimensionSet`: one complete set of physical measurements. -/
structure DimensionSet where
  height : EnrichedField := {}
  length : EnrichedField := {}
  width : EnrichedField := {}
  depth : EnrichedField := {}
  weight : EnrichedField := {}
  diameter : EnrichedField := {}
  volume : EnrichedField := {}
deriving DecidableEq, Repr, Inhabited

/-- `schemas.ProductDimensions`: net and packaged measurement sets. -/
structure ProductDimensions where
  net : DimensionSet := {}
  packaged : DimensionSet := {}
deriving DecidableEq, Repr, Inhabited

/-- `schemas.ProductDescriptions`. -/
structure ProductDescriptions where
  short_description : EnrichedField := {}
  marketing_description : EnrichedField := {}
  features : List String := []
deriving DecidableEq, Repr, Inhabited

/-- `schemas.TechnicalSpec`. -/
structure TechnicalSpec where
  name : String
  value : String
  unit : Option String := none
  source_url : Option String := none
  confidence : Confidence := .not_found
deriving DecidableEq, Repr, Inhabited

/-- `schemas.WarrantyInfo`. -/
structure WarrantyInfo where
  duration : EnrichedField := {}
  type : Option String := none
  conditions : Option String := none
  source_url : Option String := none
  confidence : Confidence := .not_found
deriving DecidableEq, Repr, Inhabited

/-- `schemas.ProductDocument` (`doc_type` kept as a plain string). -/
structure ProductDocument where
  title : String
  url : String
  doc_type : String
  language : Option String := none
  source_page : String := ""
deriving DecidableEq, Repr, Inhabited

/-- `schemas.EnrichedProduct`: the aggregate persisted per product
(`technical_data` and `documents` are their collection payloads). -/
structure EnrichedProduct where
  dimensions : ProductDimensions := {}
  descriptions : ProductDescriptions := {}
  technical_data : List TechnicalSpec := []
  warranty : WarrantyInfo := {}
  documents : List ProductDocument := []
  color : EnrichedField := {}
  country_of_origin : EnrichedField := {}
  image_url : EnrichedField := {}
  image_urls : List String := []
deriving DecidableEq, Repr, Inhabited

/-- `schemas.DimensionsExtraction`: per-page LLM output of pass 1. -/
structure DimensionsExtraction where
  net_height : EnrichedField := {}
  net_length : EnrichedField := {}
  net_width : EnrichedField := {}
  net_depth : EnrichedField := {}
  net_weight : EnrichedField := {}
  net_diameter : EnrichedField := {}
  net_volume : EnrichedField := {}
  packaged_height : EnrichedField := {}
  packaged_length : EnrichedField := {}
  packaged_width : EnrichedField := {}
  packaged_depth : EnrichedField := {}
  packaged_weight : EnrichedField := {}
  color : EnrichedField := {}
  country_of_origin : EnrichedField := {}
  image_url : EnrichedField := {}
  image_urls : List String := []
deriving DecidableEq, Repr, Inhabited

/-- `extract._merge_dimension_extractions`: merge per-page dimension
extractions into net/packaged sets, one `pick_best_field` per field. -/
def merge_dimension_extractions
    (extractions : List DimensionsExtraction) : ProductDimensions :=
  if extractions.isEmpty then {}
  else
    { net :=
        { height := pick_best_field (extractions.map (fun e => e.net_height))
          length := pick_best_field (extractions.map (fun e => e.net_length))
          width := pick_best_field (extractions.map (fun e => e.net_width))
          depth := pick_best_field (extractions.map (fun e => e.net_depth))
          weight := pick_best_field (extractions.map (fun e => e.net_weight))
          diameter := pick_best_field (extractions.map (fun e => e.net_diameter))
          volume := pick_best_field (extractions.map (fun e => e.net_volume)) }
      packaged :=
        { height := pick_best_field (extractions.map (fun e => e.packaged_height))
          length := pick_best_field (extractions.map (fun e => e.packaged_length))
          width := pick_best_field (extractions.map (fun e => e.packaged_width))
          depth := pick_best_field (extractions.map (fun e => e.packaged_depth))
          weight := pick_best_field (extractions.map (fun e => e.packaged_weight)) } }

/-! ### Gap fill (`pipeline/gap_fill.py`) -/

/-- `schemas.GapFillExtraction`: targeted gap-fill LLM output. -/
structure GapFillExtraction where
  net_weight : EnrichedField := {}
  packaged_weight : EnrichedField := {}
  packaged_height : EnrichedField := {}
  packaged_length : EnrichedField := {}
  packaged_width : EnrichedField := {}
  warranty_duration : String := ""
  warranty_type : String := ""
  warranty_conditions : String := ""
  short_description : String := ""
deriving DecidableEq, Repr, Inhabited

/-- `gap_fill.CRITICAL_GAP_CHECKS` / `_identify_gaps`: the critical gap
names still missing, in the fixed dict order of the source. -/
def identify_gaps (m : EnrichedProduct) : List String :=
  (if m.dimensions.net.weight.value = none ∨
      m.dimensions.net.weight.confidence = .not_found
   then ["net_weight"] else []) ++
  (if m.dimensions.packaged.weight.value = none ∨
      m.dimensions.packaged.weight.confidence = .not_found
   then ["packaged_weight"] else []) ++
  (if (m.dimensions.packaged.height.value = none ∨
        m.dimensions.packaged.height.confidence = .not_found) ∧
      (m.dimensions.packaged.length.value = none ∨
        m.dimensions.packaged.length.confidence = .not_found) ∧
      (m.dimensions.packaged.width.value = none ∨
        m.dimensions.packaged.width.confidence = .not_found)
   then ["packaged_dims"] else []) ++
  (if m.warranty.duration.value = none ∨
      m.warranty.duration.confidence = .not_found
   then ["warranty"] else []) ++
  (if m.descriptions.short_description.value = none
   then ["short_description"] else [])

/-- `gap_fill._all_gaps_filled`: have the accumulated page results
filled every requested gap. -/
def all_gaps_filled (gaps : List String)
    (results : List GapFillExtraction) : Bool :=
  gaps.all fun gap =>
    if gap = "net_weight" then
      results.any (fun r => r.net_weight.value.isSome)
    else if gap = "packaged_weight" then
      results.any (fun r => r.packaged_weight.value.isSome)
    else if gap = "packaged_dims" then
      results.any (fun r => r.packaged_height.value.isSome) &&
      results.any (fun r => r.packaged_length.value.isSome) &&
      results.any (fun r => r.packaged_width.value.isSome)
    else if gap = "warranty" then
      results.any (fun r => r.warranty_duration ≠ "")
    else if gap = "short_description" then
      results.any (fun r => r.short_description ≠ "")
    else true

/-- One cached third-party page as seen by the gap-fill loop: its cached
markdown, and the gap-fill LLM call outcome on it (`none` models the
exception branch of the `try`). -/
structure GFPage where
  markdown : String
  llm : Option GapFillExtraction
deriving Repr, Inhabited

/-- A page is sent to the LLM only if its markdown is usable
(`if not markdown or len(markdown) < 100: continue`). -/
def GFPage.usable (p : GFPage) : Bool := 100 ≤ p.markdown.length

/-- The page loop of `gap_fill.gap_fill_node` (step 3): process cached
pages in order, accumulate each successful result immediately, and stop
once `all_gaps_filled` holds.  Returns the accumulated results and the
number of pages actually consulted (sent to the LLM). -/
def gap_fill_loop (gaps : List String) :
    List GFPage → List GapFillExtraction → List GapFillExtraction × Nat
  | [], acc => (acc, 0)
  | p :: rest, acc =>
    if ¬ p.usable then gap_fill_loop gaps rest acc
    else
      match p.llm with
      | none =>
        let r := gap_fill_loop gaps rest acc
        (r.1, r.2 + 1)
      | some res =>
        let acc' := acc ++ [res]
        if all_gaps_filled gaps acc' then (acc', 1)
        else
          let r := gap_fill_loop gaps rest acc'
          (r.1, r.2 + 1)

/-- `_first_valid_field` inside `gap_fill._merge_gap_fill`: first
non-null, non-`not_found` result across the gap-fill pages. -/
def first_valid_field (results : List GapFillExtraction)
    (get : GapFillExtraction → EnrichedField) : Option EnrichedField :=
  (results.find? fun r =>
    (get r).value.isSome && (get r).confidence ≠ Confidence.not_found).map get

/-- The `net_weight` block of `gap_fill._merge_gap_fill`. -/
def mgfNetWeight (results : List GapFillExtraction) (gaps : List String)
    (mf : EnrichedProduct × List String) : EnrichedProduct × List String :=
  if "net_weight" ∈ gaps then
    match first_valid_field results (fun r => r.net_weight) with
    | some v =>
      ({ mf.1 with dimensions.net.weight := v }, mf.2 ++ ["net_weight"])
    | none => mf
  else mf

/-- The `packaged_weight` block of `gap_fill._merge_gap_fill`. -/
def mgfPkgWeight (results : List GapFillExtraction) (gaps : List String)
    (mf : EnrichedProduct × List String) : EnrichedProduct × List String :=
  if "packaged_weight" ∈ gaps then
    match first_valid_field results (fun r => r.packaged_weight) with
    | some v =>
      ({ mf.1 with dimensions.packaged.weight := v },
       mf.2 ++ ["packaged_weight"])
    | none => mf
  else mf

/-- The `packaged_dims` block of `gap_fill._merge_gap_fill` (each of
the three box dimensions is filled independently). -/
def mgfPkgDims (results : List GapFillExtraction) (gaps : List String)
    (mf : EnrichedProduct × List String) : EnrichedProduct × List String :=
  if "packaged_dims" ∈ gaps then
    let withH :=
      match first_valid_field results (fun r => r.packaged_height) with
      | some v =>
        ({ mf.1 with dimensions.packaged.height := v },
         mf.2 ++ ["packaged_height"])
      | none => mf
    let withL :=
      match first_valid_field results (fun r => r.packaged_length) with
      | some v =>
        ({ withH.1 with dimensions.packaged.length := v },
         withH.2 ++ ["packaged_length"])
      | none => withH
    match first_valid_field results (fun r => r.packaged_width) with
    | some v =>
      ({ withL.1 with dimensions.packaged.width := v },
       withL.2 ++ ["packaged_width"])
    | none => withL
  else mf

/-- The `warranty` block of `gap_fill._merge_gap_fill`: taken wholesale
from the first page result reporting a duration. -/
def mgfWarranty (results : List GapFillExtraction) (gaps : List String)
    (mf : EnrichedProduct × List String) : EnrichedProduct × List String :=
  if "warranty" ∈ gaps then
    match results.find? (fun r => r.warranty_duration ≠ "") with
    | some r =>
      ({ mf.1 with
          warranty :=
            { duration :=
                { value := some (.s r.warranty_duration)
                  confidence := .third_party
                  notes := some "Gap-filled from third-party page" }
              type :=
                if r.warranty_type = "" then none else some r.warranty_type
              conditions :=
                if r.warranty_conditions = "" then none
                else some r.warranty_conditions
              source_url := mf.1.warranty.source_url
              confidence := .third_party } },
       mf.2 ++ ["warranty"])
    | none => mf
  else mf

/-- The `short_description` block of `gap_fill._merge_gap_fill`. -/
def mgfShortDesc (results : List GapFillExtraction) (gaps : List String)
    (mf : EnrichedProduct × List String) : EnrichedProduct × List String :=
  if "short_description" ∈ gaps then
    match results.find? (fun r => r.short_description ≠ "") with
    | some r =>
      ({ mf.1 with
          descriptions.short_description :=
            { value := some (.s r.short_description)
              confidence := .third_party
              notes := some "Gap-filled from third-party page" } },
       mf.2 ++ ["short_description"])
    | none => mf
  else mf

/-- `gap_fill._merge_gap_fill`: write gap-fill results into the product
(only for requested gaps, in the fixed source order), returning the
updated product and the list of filled field names. -/
def merge_gap_fill (m : EnrichedProduct) (gaps : List String)
    (results : List GapFillExtraction) : EnrichedProduct × List String :=
  mgfShortDesc results gaps
    (mgfWarranty results gaps
      (mgfPkgDims results gaps
        (mgfPkgWeight results gaps
          (mgfNetWeight results gaps (m, [])))))

/-! ### Deterministic image filtering (`extract._filter_images_deterministic`) -/

/-- `extract.MIN_IMAGE_SIZE_BYTES` (45 KB). -/
def MIN_IMAGE_SIZE_BYTES : Nat := 45000

/-- `extract.MAX_IMAGE_SIZE_BYTES` (20 MB). -/
def MAX_IMAGE_SIZE_BYTES : Nat := 20000000

/-- `extract.MAX_IMAGES_TO_CHECK`. -/
def MAX_IMAGES_TO_CHECK : Nat := 20

/-- `extract.MAX_IMAGES_TO_KEEP`. -/
def MAX_IMAGES_TO_KEEP : Nat := 8

/-- Is the first list a prefix of the second (over characters). -/
def charsPrefixOf : List Char → List Char → Bool
  | [], _ => true
  | _ :: _, [] => false
  | a :: as, b :: bs => a = b && charsPrefixOf as bs

/-- Does the first list occur as a contiguous run inside the second. -/
def charsInfixOf (sub : List Char) : List Char → Bool
  | [] => sub.isEmpty
  | c :: rest => charsPrefixOf sub (c :: rest) || charsInfixOf sub rest

/-- Python `sub in s` substring test. -/
def strContains (s sub : String) : Bool := charsInfixOf sub.toList s.toList

/-- Outcome of the HTTP HEAD probe of one image candidate: either an
outright network failure, or response headers (content type, and the
parsed `content-length`, `0` when the header is missing/unparsable). -/
inductive ProbeResult where
  | failed
  | ok (contentType : String) (contentLength : Nat)
deriving DecidableEq, Repr, Inhabited

/-- `check_url` inside `_filter_images_deterministic`: returns the kept
`(url, size-for-sorting)` pair or `none` when the candidate is
rejected.  A failed probe is provisionally kept with size 0; a missing
content length is kept with size 1. -/
def check_url (probe : String → ProbeResult) (url : String) :
    Option (String × Nat) :=
  match probe url with
  | .failed => some (url, 0)
  | .ok contentType contentLength =>
    let ct := strLower contentType
    if ¬ strContains ct "image" then none
    else if strContains ct "svg" then none
    else if 0 < contentLength then
      if contentLength < MIN_IMAGE_SIZE_BYTES then none
      else if MAX_IMAGE_SIZE_BYTES < contentLength then none
      else some (url, contentLength)
    else some (url, 1)

/-- Descending order on the probed sizes, used for the final sort. -/
def bySizeDesc (a b : String × Nat) : Prop := b.2 ≤ a.2

instance : DecidableRel bySizeDesc := fun a b => by
  unfold bySizeDesc; infer_instance

instance : IsTotal (String × Nat) bySizeDesc :=
  ⟨fun a b => (Nat.le_total b.2 a.2).imp id id⟩

instance : IsTrans (String × Nat) bySizeDesc :=
  ⟨fun _ _ _ hab hbc => Nat.le_trans hbc hab⟩

/-- The surviving `(url, size)` pairs of `_filter_images_deterministic`
before the final truncation: probe the first `MAX_IMAGES_TO_CHECK`
candidates and sort survivors by size, largest first.  Python's
`list.sort` is stable, and a stable sort is unique, so the stable
`insertionSort` computes exactly its result. -/
def filter_images_pairs (probe : String → ProbeResult)
    (image_urls : List String) : List (String × Nat) :=
  List.insertionSort bySizeDesc
    ((image_urls.take MAX_IMAGES_TO_CHECK).filterMap (check_url probe))

/-- `extract._filter_images_deterministic`: the final kept URL list
(top `MAX_IMAGES_TO_KEEP` by descending observed size). -/
def filter_images_deterministic (probe : String → ProbeResult)
    (image_urls : List String) : List String :=
  if image_urls.isEmpty then []
  else ((filter_images_pairs probe image_urls).take MAX_IMAGES_TO_KEEP).map
    Prod.fst

/-! ### Document deduplication (`extract._deduplicate_documents`) -/

/-- One harvested document link (`{title, url, source_page}` dict of
`_extract_pdf_links`). -/
structure PdfLink where
  title : String
  url : String
  source_page : String
deriving DecidableEq, Repr, Inhabited

/-- Skip past the first `://` of a URL (the scheme separator), if any. -/
def dropThroughSchemeSep : List Char → Option (List Char)
  | ':' :: '/' :: '/' :: rest => some rest
  | _ :: rest => dropThroughSchemeSep rest
  | [] => none

/-- The path component of a URL (`urllib.parse.urlparse(url).path`):
everything after the scheme-and-host prefix up to the query/fragment. -/
def urlPath (url : String) : String :=
  let stripQF (l : List Char) : List Char :=
    l.takeWhile (fun c => c ≠ '?' && c ≠ '#')
  match dropThroughSchemeSep url.toList with
  | some rest => String.mk (stripQF (rest.dropWhile (fun c => c ≠ '/')))
  | none => String.mk (stripQF url.toList)

/-- Longest leading digit run of a character list, with the remainder. -/
def takeDigits : List Char → Nat × List Char
  | [] => (0, [])
  | c :: rest =>
    if c.isDigit then
      let r := takeDigits rest
      (r.1 + 1, r.2)
    else (0, c :: rest)

theorem takeDigits_length_le (l : List Char) :
    (takeDigits l).2.length ≤ l.length := by
  induction l with
  | nil => simp [takeDigits]
  | cons c rest ih =>
    simp only [takeDigits]
    by_cases hd : c.isDigit
    · simpa [hd] using Nat.le_succ_of_le ih
    · simp [hd]

theorem takeDigits_length_lt (l : List Char) (h : 1 ≤ (takeDigits l).1) :
    (takeDigits l).2.length < l.length := by
  induction l with
  | nil => simp [takeDigits] at h
  | cons c rest ih =>
    simp only [takeDigits] at h ⊢
    by_cases hd : c.isDigit
    · simpa [hd] using Nat.lt_succ_of_le (takeDigits_length_le rest)
    · simp [hd] at h

/-- Match of at least six digits at the head of `m`, returning the
remainder (the `\d{6,}` part of the version regex). -/
def sixDigits (m : List Char) : Option (List Char) :=
  if 6 ≤ (takeDigits m).1 then some (takeDigits m).2 else none

theorem sixDigits_length_lt (m rem : List Char)
    (h : sixDigits m = some rem) : rem.length < m.length := by
  unfold sixDigits at h
  split at h
  · rename_i h6
    injection h with h
    subst h
    exact takeDigits_length_lt m (by omega)
  · exact absurd h (by simp)

/-- Try to match the regex tail `v?\d{6,}` at the head of `l`,
returning the remainder after the match (the `v?` is greedy; when `l`
starts with `v` but too few digits follow, the v-less alternative
starts at the `v` itself, which is not a digit, so it fails too). -/
def matchVersionTail (l : List Char) : Option (List Char) :=
  match l with
  | c :: t => if c = 'v' then sixDigits t else sixDigits (c :: t)
  | [] => sixDigits []

theorem matchVersionTail_length_lt (l : List Char) (rem : List Char)
    (h : matchVersionTail l = some rem) : rem.length < l.length := by
  cases l with
  | nil => exact absurd h (by simp [matchVersionTail, sixDigits, takeDigits])
  | cons c t =>
    simp only [matchVersionTail] at h
    by_cases hc : c = 'v'
    · rw [if_pos hc] at h
      exact Nat.lt_succ_of_lt (sixDigits_length_lt t rem h)
    · rw [if_neg hc] at h
      exact sixDigits_length_lt (c :: t) rem h

/-- Fuel-driven worker for the `re.sub` scan (structural recursion on
the fuel so that concrete instances evaluate inside the kernel; by
`matchVersionTail_length_lt` any fuel above the input length never runs
out). -/
def stripVersionRunsAux : Nat → List Char → List Char
  | 0, l => l
  | _ + 1, [] => []
  | fuel + 1, c :: rest =>
    if c = '_' ∨ c = '-' then
      match matchVersionTail rest with
      | some rem => stripVersionRunsAux fuel rem
      | none => c :: stripVersionRunsAux fuel rest
    else c :: stripVersionRunsAux fuel rest

/-- The `re.sub` scan of `re.sub(r"[_-]v?\d{6,}", "", filename)`:
delete every (leftmost, non-overlapping) match of an underscore or
hyphen followed by an optional `v` and at least six digits. -/
def stripVersionRuns (l : List Char) : List Char :=
  stripVersionRunsAux (l.length + 1) l

/-- The characters after the last `/` (Python `path.split("/")[-1]`). -/
def lastSegment (l : List Char) : List Char :=
  (l.reverse.takeWhile (fun c => c ≠ '/')).reverse

/-- The grouping key of `_deduplicate_documents`: last path segment,
lower-cased and stripped, with version/hash runs removed; the full URL
when that normalization leaves nothing. -/
def docKey (url : String) : String :=
  let filename :=
    trimChars ((lastSegment (urlPath url).toList).map Char.toLower)
  let norm := String.mk (stripVersionRuns filename)
  if norm = "" then url else norm

/-- `extract._SOURCE_DOC_RANK` via `dict.get(..., 0)`. -/
def sourceDocRank (sourceType : String) : Nat :=
  if sourceType = "manufacturer" then 3
  else if sourceType = "authorized_distributor" then 2
  else if sourceType = "third_party" then 1
  else 0

/-- The rank of one candidate:
`_SOURCE_DOC_RANK.get(source_type_by_url.get(c["source_page"], ""), 0)`. -/
def candRank (source_type_by_url : List (String × String))
    (c : PdfLink) : Nat :=
  sourceDocRank ((source_type_by_url.lookup c.source_page).getD "")

/-- Python `max(candidates, key=...)`: first candidate of maximal rank. -/
def maxByRank (source_type_by_url : List (String × String)) :
    List PdfLink → PdfLink
  | [] => {title := "", url := "", source_page := ""}
  | c :: rest =>
    rest.foldl
      (fun best x =>
        if candRank source_type_by_url best < candRank source_type_by_url x
        then x else best)
      c

/-- `extract._deduplicate_documents`: group links by normalized filename
key (dict insertion order) and keep the highest-source-tier
representative of each group. -/
def deduplicate_documents (pdf_links : List PdfLink)
    (source_type_by_url : List (String × String)) : List PdfLink :=
  let keys := dedupFS [] (pdf_links.map (fun p => docKey p.url))
  keys.map fun k =>
    maxByRank source_type_by_url
      (pdf_links.filter (fun p => docKey p.url = k))

/-! ### Pipeline graph (`graph.build_pipeline`) -/

/-- The node names registered by `graph.build_pipeline` via
`builder.add_node`. -/
def pipelineNodes : List String :=
  ["triage", "ean_lookup", "search", "extract", "validate", "save_costs"]

/-- The unconditional edges of `graph.build_pipeline` via
`builder.add_edge` (LangGraph `START` / `END` written as such). -/
def pipelineEdges : List (String × String) :=
  [("START", "triage"), ("ean_lookup", "search"), ("search", "extract"),
   ("extract", "validate"), ("validate", "save_costs"),
   ("save_costs", "END")]

/-- `graph.route_after_triage`: conditional routing out of `triage`. -/
def route_after_triage (error : Option String) (has_brand : Bool) : String :=
  if error.isSome then "search"
  else if ¬ has_brand then "ean_lookup"
  else "search"

/-! ### Unit normalization (`utils/normalization.py`)

Python `round(x, k)` is half-even rounding at `k` decimal places,
modelled exactly on the rational value. -/

/-- Half-even rounding of a rational to an integer (Python `round`). -/
def roundHalfEven (q : ℚ) : ℤ :=
  let f := ⌊q⌋
  let r := q - f
  if r < 1 / 2 then f
  else if 1 / 2 < r then f + 1
  else if f % 2 = 0 then f else f + 1

/-- Python `round(q, k)`. -/
def pyRound (k : Nat) (q : ℚ) : ℚ :=
  (roundHalfEven (q * 10 ^ k) : ℚ) / 10 ^ k

/-- The length conversion table of `normalize_to_cm` (alias → factor). -/
def cmConversions : List (String × ℚ) :=
  [("mm", Rat.divInt 1 10), ("millimeter", Rat.divInt 1 10),
   ("millimeters", Rat.divInt 1 10),
   ("cm", 1), ("centimeter", 1), ("centimeters", 1),
   ("m", 100), ("meter", 100), ("meters", 100),
   ("in", Rat.divInt 254 100), ("inch", Rat.divInt 254 100),
   ("inches", Rat.divInt 254 100), ("\x22", Rat.divInt 254 100),
   ("ft", Rat.divInt 3048 100), ("foot", Rat.divInt 3048 100),
   ("feet", Rat.divInt 3048 100)]

/-- The mass conversion table of `normalize_to_kg`. -/
def kgConversions : List (String × ℚ) :=
  [("g", Rat.divInt 1 1000), ("gram", Rat.divInt 1 1000),
   ("grams", Rat.divInt 1 1000),
   ("kg", 1), ("kilogram", 1), ("kilograms", 1),
   ("lb", Rat.divInt 4536 10000), ("lbs", Rat.divInt 4536 10000),
   ("pound", Rat.divInt 4536 10000), ("pounds", Rat.divInt 4536 10000),
   ("oz", Rat.divInt 2835 100000), ("ounce", Rat.divInt 2835 100000),
   ("ounces", Rat.divInt 2835 100000)]

/-- The volume conversion table of `normalize_to_liters`. -/
def literConversions : List (String × ℚ) :=
  [("ml", Rat.divInt 1 1000), ("milliliter", Rat.divInt 1 1000),
   ("milliliters", Rat.divInt 1 1000),
   ("cl", Rat.divInt 1 100), ("dl", Rat.divInt 1 10),
   ("l", 1), ("liter", 1), ("liters", 1), ("litre", 1), ("litres", 1),
   ("gal", Rat.divInt 3785 1000), ("gallon", Rat.divInt 3785 1000),
   ("qt", Rat.divInt 9464 10000), ("quart", Rat.divInt 9464 10000),
   ("fl_oz", Rat.divInt 2957 100000), ("fluid ounce", Rat.divInt 2957 100000)]

/-- `unit.lower().strip() if unit else ""`. -/
def pyUnitKey (unit : Option String) : String :=
  match unit with
  | none => ""
  | some u => if u = "" then "" else strTrim (strLower u)

/-- `normalization.normalize_to_cm` on a non-null numeric value (the
`value is None` guard lives at the `Option` level in callers). -/
def normalize_to_cm (value : ℚ) (unit : Option String) : ℚ :=
  let factor := ((cmConversions.lookup (pyUnitKey unit)).getD 1)
  pyRound 2 (value * factor)

/-- `normalization.normalize_to_kg` on a non-null numeric value. -/
def normalize_to_kg (value : ℚ) (unit : Option String) : ℚ :=
  let factor := ((kgConversions.lookup (pyUnitKey unit)).getD 1)
  pyRound 3 (value * factor)

/-- `normalization.normalize_to_liters` on a non-null numeric value. -/
def normalize_to_liters (value : ℚ) (unit : Option String) : ℚ :=
  let factor := ((literConversions.lookup (pyUnitKey unit)).getD 1)
  pyRound 3 (value * factor)

/-- `normalization.normalize_field`: normalize the value, relabel the
unit with the canonical one, keep the original in a note.  The
`except` branch (reachable only through `float()` on a non-numeric
string) returns the field unchanged and is modelled by the `toRat?`
`none` branch. -/
def normalize_field (field : EnrichedField) (target_type : String) :
    EnrichedField :=
  if field.value = none ∨ field.unit = none ∨ field.unit = some "" then field
  else
    match field.value with
    | none => field
    | some v =>
      match toRat? v with
      | none => field
      | some q =>
        let nv : Option ℚ × Option String :=
          if target_type = "length" then
            (some (normalize_to_cm q field.unit), some "cm")
          else if target_type = "weight" then
            (some (normalize_to_kg q field.unit), some "kg")
          else if target_type = "volume" then
            (some (normalize_to_liters q field.unit), some "L")
          else (none, none)
        let note := "Normalized from " ++ pyStr v ++ " " ++ (field.unit.getD "")
        { field with
          value := nv.1.map FieldValue.f
          unit := nv.2
          notes :=
            match field.notes with
            | some ns => if ns = "" then some note else some (ns ++ "; " ++ note)
            | none => some note }

/-! ### Deterministic corrections (`pipeline/validate.py`) -/

/-- `validate.JUNK_VALUES`. -/
def JUNK_VALUES : List String :=
  ["", "n/a", "na", "n.a.", "-", "--", "---", ".", "..", "...", "none",
   "null", "not available", "not specified", "not stated", "unknown",
   "unbekannt", "tbd", "tba", "see description", "see product description",
   "varies", "various", "multiple", "assorted", "?", "no data", "kein",
   "keine", "неизвестно", "/", "na.", "n.d.", "nd"]

/-- `validate._is_junk`. -/
def is_junk (val : String) : Bool :=
  strLower (strTrim val) ∈ JUNK_VALUES || (strTrim val).length ≤ 1

/-- `validate.MULTILANG_COLORS`. -/
def MULTILANG_COLORS : List (String × String) :=
  [("schwarz", "black"), ("weiß", "white"), ("weiss", "white"),
   ("rot", "red"), ("blau", "blue"), ("grün", "green"), ("gruen", "green"),
   ("gelb", "yellow"), ("silber", "silver"), ("grau", "gray"),
   ("braun", "brown"), ("lila", "purple"), ("gold", "gold"),
   ("orange", "orange"),
   ("noir", "black"), ("blanc", "white"), ("rouge", "red"),
   ("bleu", "blue"), ("vert", "green"), ("jaune", "yellow"),
   ("argent", "silver"), ("gris", "gray"), ("brun", "brown"),
   ("violet", "purple"),
   ("nero", "black"), ("bianco", "white"), ("rosso", "red"),
   ("blu", "blue"), ("verde", "green"), ("giallo", "yellow"),
   ("argento", "silver"), ("grigio", "gray"), ("marrone", "brown"),
   ("viola", "purple"), ("arancione", "orange"),
   ("negro", "black"), ("blanco", "white"), ("rojo", "red"),
   ("azul", "blue"), ("naranja", "orange"), ("marron", "brown"),
   ("črna", "black"), ("bela", "white"), ("rdeča", "red"),
   ("modra", "blue"), ("zelena", "green"), ("rumena", "yellow"),
   ("srebrna", "silver"), ("siva", "gray"), ("rjava", "brown"),
   ("vijolična", "purple"), ("oranžna", "orange"),
   ("schwarz/gelb", "black/yellow"), ("gelb/schwarz", "yellow/black"),
   ("schwarz/rot", "black/red"), ("rot/schwarz", "red/black")]

/-- `validate._normalize_color`. -/
def normalize_color (raw : String) : Option String :=
  MULTILANG_COLORS.lookup (strLower (strTrim raw))

/-- `validate.COUNTRY_NAME_MAP`. -/
def COUNTRY_NAME_MAP : List (String × String) :=
  [("de", "Germany"), ("deutschland", "Germany"), ("allemagne", "Germany"),
   ("germania", "Germany"), ("alemania", "Germany"),
   ("jp", "Japan"), ("japon", "Japan"), ("giappone", "Japan"),
   ("cn", "China"), ("chine", "China"), ("cina", "China"), ("prc", "China"),
   ("pr china", "China"), ("people\x27s republic of china", "China"),
   ("us", "USA"), ("usa", "USA"), ("united states", "USA"),
   ("united states of america", "USA"), ("états-unis", "USA"),
   ("stati uniti", "USA"),
   ("it", "Italy"), ("italia", "Italy"), ("italie", "Italy"),
   ("fr", "France"), ("frankreich", "France"), ("francia", "France"),
   ("gb", "UK"), ("uk", "UK"), ("great britain", "UK"),
   ("united kingdom", "UK"), ("england", "UK"),
   ("pl", "Poland"), ("polska", "Poland"), ("pologne", "Poland"),
   ("polen", "Poland"),
   ("cz", "Czech Republic"), ("czech republic", "Czech Republic"),
   ("czechia", "Czech Republic"), ("tschechien", "Czech Republic"),
   ("tw", "Taiwan"), ("chinese taipei", "Taiwan"),
   ("kr", "South Korea"), ("south korea", "South Korea"),
   ("korea", "South Korea"),
   ("sk", "Slovakia"), ("slowakei", "Slovakia"),
   ("at", "Austria"), ("österreich", "Austria"), ("autriche", "Austria"),
   ("nl", "Netherlands"), ("holland", "Netherlands"),
   ("niederlande", "Netherlands"),
   ("be", "Belgium"), ("belgique", "Belgium"), ("belgien", "Belgium"),
   ("se", "Sweden"), ("schweden", "Sweden"), ("suède", "Sweden"),
   ("fi", "Finland"), ("finnland", "Finland"), ("finlande", "Finland"),
   ("no", "Norway"), ("norwegen", "Norway"), ("norvège", "Norway"),
   ("dk", "Denmark"), ("dänemark", "Denmark"), ("danemark", "Denmark"),
   ("ch", "Switzerland"), ("schweiz", "Switzerland"),
   ("suisse", "Switzerland"),
   ("es", "Spain"), ("españa", "Spain"), ("spanien", "Spain"),
   ("espagne", "Spain"),
   ("pt", "Portugal"),
   ("hu", "Hungary"), ("ungarn", "Hungary"), ("hongrie", "Hungary"),
   ("ro", "Romania"), ("rumänien", "Romania"), ("roumanie", "Romania"),
   ("hr", "Croatia"), ("kroatien", "Croatia"), ("croatie", "Croatia"),
   ("si", "Slovenia"), ("slowenien", "Slovenia"), ("slovénie", "Slovenia"),
   ("tr", "Turkey"), ("türkei", "Turkey"), ("turquie", "Turkey"),
   ("türkiye", "Turkey"),
   ("in", "India"), ("indien", "India"), ("inde", "India"),
   ("th", "Thailand"), ("tailandia", "Thailand"),
   ("vn", "Vietnam"), ("vietnam", "Vietnam"),
   ("mx", "Mexico"), ("méxico", "Mexico"), ("mexiko", "Mexico"),
   ("br", "Brazil"), ("brasilien", "Brazil"), ("brésil", "Brazil")]

/-- One token of the `COUNTRY_PREFIX_RE` pattern. -/
inductive PatTok where
  | lit (s : String)
  | wsPlus
  | wsColonPlus
deriving Repr

/-- Case-insensitive literal match at the head of the input. -/
def matchLitCI : List Char → List Char → Option (List Char)
  | [], l => some l
  | _ :: _, [] => none
  | p :: ps, c :: cs =>
    if p.toLower = c.toLower then matchLitCI ps cs else none

/-- Match one pattern token at the head of the input. -/
def matchTok : PatTok → List Char → Option (List Char)
  | .lit s, l => matchLitCI s.toList l
  | .wsPlus, l =>
    if (l.takeWhile isWsChar).isEmpty then none
    else some (l.dropWhile isWsChar)
  | .wsColonPlus, l =>
    if (l.takeWhile (fun c => isWsChar c || c = ':')).isEmpty then none
    else some (l.dropWhile (fun c => isWsChar c || c = ':'))

/-- Match a token sequence at the head of the input. -/
def matchPat : List PatTok → List Char → Option (List Char)
  | [], l => some l
  | t :: ts, l =>
    match matchTok t l with
    | some l2 => matchPat ts l2
    | none => none

/-- The alternatives of `validate.COUNTRY_PREFIX_RE`, in source order. -/
def countryPrefixPatterns : List (List PatTok) :=
  [[.lit "made", .wsPlus, .lit "in"],
   [.lit "manufactured", .wsPlus, .lit "in"],
   [.lit "product", .wsPlus, .lit "of"],
   [.lit "hergestellt", .wsPlus, .lit "in"],
   [.lit "fabriqué", .wsPlus, .lit "en"],
   [.lit "prodotto", .wsPlus, .lit "in"],
   [.lit "fabricado", .wsPlus, .lit "en"],
   [.lit "произведено", .wsPlus, .lit "в"],
   [.lit "origin", .wsColonPlus],
   [.lit "country", .wsPlus, .lit "of", .wsPlus, .lit "origin",
    .wsColonPlus],
   [.lit "land", .wsColonPlus]]

/-- First alternative matching at position 0 (regex alternation order). -/
def tryPatterns (l : List Char) : List (List PatTok) → Option (List Char)
  | [] => none
  | p :: ps =>
    match matchPat p l with
    | some rem => some rem
    | none => tryPatterns l ps

/-- `COUNTRY_PREFIX_RE.sub("", raw)`: strip a recognized origin prefix
(and the trailing whitespace of the pattern) from the start. -/
def countrySubPrefixRe (raw : String) : String :=
  match tryPatterns raw.toList countryPrefixPatterns with
  | some rem => String.mk (rem.dropWhile isWsChar)
  | none => raw

/-- `validate._normalize_country`. -/
def normalize_country (raw : String) : Option String :=
  let stripped := strTrim (countrySubPrefixRe raw)
  match COUNTRY_NAME_MAP.lookup (strLower stripped) with
  | some mapped => some mapped
  | none => if stripped ≠ raw then some stripped else none

/-- Python single-quoting used inside the correction log strings. -/
def q1 (s : String) : String := "\x27" ++ s ++ "\x27"

/-- Python `s.lstrip("; ")`. -/
def lstripSemiSpace (s : String) : String :=
  String.mk (s.toList.dropWhile (fun c => c = ';' || c = ' '))

/-- Zero-padded 3-digit rendering for the `:.3f` format. -/
def pad3 (n : Nat) : String :=
  let s := toString n
  String.mk (List.replicate (3 - s.length) '0') ++ s

/-- Python `f"{q:.3f}"` (half-even at 3 decimals). -/
def fmt3 (q : ℚ) : String :=
  let sign := if q < 0 then "-" else ""
  let a := (roundHalfEven (|q| * 1000)).toNat
  sign ++ toString (a / 1000) ++ "." ++ pad3 (a % 1000)

/-- Python `f"{x}"` on an `Optional[str]` (`f"{None}"` is `"None"`). -/
def optStr (u : Option String) : String := u.getD "None"

/-- Python `raw[:40]`. -/
def pyTake (n : Nat) (s : String) : String := String.mk (s.toList.take n)

/-- Correction 1 of `validate._apply_corrections`: color junk removal
and language normalization. -/
def corrColor (m : EnrichedProduct) : EnrichedProduct × List String :=
  match m.color.value with
  | none => (m, [])
  | some v =>
    let raw := pyStr v
    if is_junk raw then
      ({ m with color.value := none, color.confidence := .not_found },
       ["color: removed junk value " ++ q1 raw])
    else
      match normalize_color raw with
      | some mapped =>
        ({ m with
            color.value := some (.s mapped)
            color.notes := some (lstripSemiSpace
              ((m.color.notes.getD "") ++ "; auto-normalized from non-English")) },
         ["color: " ++ q1 raw ++ " → " ++ q1 mapped ++
          " (language normalization)"])
      | none => (m, [])

/-- Correction 2 of `validate._apply_corrections`: country junk removal
and normalization (a falsy `""` from `_normalize_country` is skipped). -/
def corrCountry (m : EnrichedProduct) : EnrichedProduct × List String :=
  match m.country_of_origin.value with
  | none => (m, [])
  | some v =>
    let raw := pyStr v
    if is_junk raw then
      ({ m with
          country_of_origin.value := none
          country_of_origin.confidence := .not_found },
       ["country_of_origin: removed junk value " ++ q1 raw])
    else
      match normalize_country raw with
      | some normalized =>
        if normalized = "" then (m, [])
        else
          ({ m with country_of_origin.value := some (.s normalized) },
           ["country_of_origin: " ++ q1 raw ++ " → " ++ q1 normalized])
      | none => (m, [])

/-- Correction 3 of `validate._apply_corrections`: lift a small
packaged-vs-net weight shortfall up to the net weight.  `float()` on a
string-typed weight would raise in Python; that path is modelled by the
`toRat?` `none` branch and is unused by the theorems below. -/
def corrWeight (m : EnrichedProduct) : EnrichedProduct × List String :=
  let net_w := m.dimensions.net.weight
  let pkg_w := m.dimensions.packaged.weight
  if net_w.value.isSome ∧ pkg_w.value.isSome ∧ net_w.unit = pkg_w.unit then
    match net_w.value.bind toRat?, pkg_w.value.bind toRat? with
    | some net_val, some pkg_val =>
      if pkg_val < net_val then
        let diff := net_val - pkg_val
        let heavier := net_val
        let threshold_kg : ℚ :=
          if net_w.unit = some "kg" then Rat.divInt 1 2 else 500
        if diff < heavier * Rat.divInt 5 100 ∨ diff < threshold_kg then
          ({ m with dimensions.packaged.weight :=
              { pkg_w with
                value := some (.f net_val)
                confidence := .inferred
                notes := some (lstripSemiSpace ((pkg_w.notes.getD "") ++
                  "; auto-normalized: packaged was " ++ fmt3 diff ++ " " ++
                  optStr net_w.unit ++ " lighter than net")) } },
           ["packaged_weight: " ++ decimalStr pkg_val ++ " → " ++
            decimalStr net_val ++ " " ++ optStr net_w.unit ++ " (was " ++
            fmt3 diff ++ " " ++ optStr net_w.unit ++
            " lighter than net — normalized to net weight)"])
        else (m, [])
      else (m, [])
    | _, _ => (m, [])
  else (m, [])

/-- Correction 4 of `validate._apply_corrections`: description junk
removal (note: it nulls the value without touching the tier). -/
def corrDesc (m : EnrichedProduct) : EnrichedProduct × List String :=
  let s1 : EnrichedProduct × List String :=
    match m.descriptions.short_description.value with
    | some v =>
      let raw := pyStr v
      if is_junk raw then
        ({ m with descriptions.short_description.value := none },
         ["descriptions.short_description: removed junk value " ++
          q1 (pyTake 40 raw)])
      else (m, [])
    | none => (m, [])
  match s1.1.descriptions.marketing_description.value with
  | some v =>
    let raw := pyStr v
    if is_junk raw then
      ({ s1.1 with descriptions.marketing_description.value := none },
       s1.2 ++ ["descriptions.marketing_description: removed junk value " ++
        q1 (pyTake 40 raw)])
    else s1
  | none => s1

/-- `validate._apply_corrections`: the four deterministic corrections in
source order, returning the corrected product and the log lines. -/
def apply_corrections (m : EnrichedProduct) : EnrichedProduct × List String :=
  let c1 := corrColor m
  let c2 := corrCountry c1.1
  let c3 := corrWeight c2.1
  let c4 := corrDesc c3.1
  (c4.1, c1.2 ++ c2.2 ++ c3.2 ++ c4.2)

/-! ## Theorems -/

/-- C1: the spec requires `search → extract → gap_fill → validate`, and
the repository's own comments (`extract.py`, `db.py`) promise that the
`gap_fill` node runs after extraction; but `build_pipeline` never
registers a `gap_fill` node and wires `extract` directly to `validate`,
so the gap-fill stage is never executed by the orchestrator. -/
theorem c1_gap_fill_not_scheduled :
    "gap_fill" ∉ pipelineNodes ∧
    ("extract", "validate") ∈ pipelineEdges ∧
    (∀ e ∈ pipelineEdges, e.1 = "extract" → e.2 = "validate") ∧
    (∀ e ∈ pipelineEdges, e.1 ≠ "gap_fill" ∧ e.2 ≠ "gap_fill") := by
  decide

/-- Filtering away a tier from a list with no member of that tier. -/
theorem tierList_eq_nil {t : Confidence} {l : List EnrichedField}
    (h : ∀ f ∈ l, f.confidence ≠ t) : tierList t l = [] := by
  unfold tierList
  rw [List.filter_eq_nil_iff]
  intro f hf
  simpa using h f hf

theorem survivors_append (l₁ l₂ : List EnrichedField) :
    survivors (l₁ ++ l₂) = survivors l₁ ++ survivors l₂ :=
  List.filter_append _ _

theorem mem_survivors {f : EnrichedField} {l : List EnrichedField}
    (h : f ∈ survivors l) : f ∈ l :=
  List.mem_of_mem_filter h

/-- C2: if the candidate list contains exactly one official candidate
with non-null value, with the rest at lower tiers, `_pick_best_field`
returns that official candidate verbatim, whatever the input order. -/
theorem c2_official_tier_precedence
    (l₁ l₂ : List EnrichedField) (o : EnrichedField)
    (ho : o.confidence = .official) (hv : o.value.isSome)
    (hother : ∀ f, f ∈ l₁ ∨ f ∈ l₂ → f.confidence ≠ .official) :
    pick_best_field (l₁ ++ o :: l₂) = o := by
  have hosurv : survivors (o :: l₂) = o :: survivors l₂ := by
    unfold survivors
    rw [List.filter_cons_of_pos]
    simp [hv, ho]
  have hcand : survivors (l₁ ++ o :: l₂) =
      survivors l₁ ++ o :: survivors l₂ := by
    rw [survivors_append, hosurv]
  have hoff : tierList .official (survivors l₁ ++ o :: survivors l₂) =
      [o] := by
    unfold tierList
    rw [List.filter_append, List.filter_cons_of_pos (by simpa using ho)]
    have h₁ : (survivors l₁).filter
        (fun f => f.confidence = Confidence.official) = [] := by
      rw [List.filter_eq_nil_iff]
      intro f hf
      simpa using hother f (Or.inl (mem_survivors hf))
    have h₂ : (survivors l₂).filter
        (fun f => f.confidence = Confidence.official) = [] := by
      rw [List.filter_eq_nil_iff]
      intro f hf
      simpa using hother f (Or.inr (mem_survivors hf))
    rw [h₁, h₂]
    rfl
  unfold pick_best_field
  rw [hcand]
  simp [hoff]

/-- Page A (manufacturer): net weight 2.3 kg, tier official. -/
def pageA_net_weight : EnrichedField :=
  { value := some (.f (Rat.divInt 23 10)), unit := some "kg",
    confidence := .official }

/-- Page B (authorized distributor): net weight 2.5 kg. -/
def pageB_net_weight : EnrichedField :=
  { value := some (.f (Rat.divInt 25 10)), unit := some "kg",
    confidence := .authorized }

/-- Witness for C2: merging the scenario's two net-weight observations
through `_merge_dimension_extractions` yields the official 2.3 kg
verbatim, in either page order. -/
theorem c2_official_tier_precedence_witness :
    (merge_dimension_extractions
      [{ net_weight := pageA_net_weight },
       { net_weight := pageB_net_weight }]).net.weight = pageA_net_weight ∧
    (merge_dimension_extractions
      [{ net_weight := pageB_net_weight },
       { net_weight := pageA_net_weight }]).net.weight = pageA_net_weight := by
  constructor
  · have h := c2_official_tier_precedence [] [pageB_net_weight]
      pageA_net_weight rfl rfl
      (by intro f hf; rcases hf with h | h <;> simp_all [pageB_net_weight])
    simpa [merge_dimension_extractions] using h
  · have h := c2_official_tier_precedence [pageB_net_weight] []
      pageA_net_weight rfl rfl
      (by intro f hf; rcases hf with h | h <;> simp_all [pageB_net_weight])
    simpa [merge_dimension_extractions] using h

theorem mem_dedupFS (s : String) :
    ∀ (l seen : List String), s ∈ dedupFS seen l ↔ (s ∈ l ∧ s ∉ seen) := by
  intro l
  induction l with
  | nil => intro seen; simp [dedupFS]
  | cons a rest ih =>
    intro seen
    unfold dedupFS
    by_cases ha : a ∈ seen
    · rw [if_pos ha, ih]
      constructor
      · rintro ⟨hr, hs⟩
        exact ⟨List.mem_cons_of_mem _ hr, hs⟩
      · rintro ⟨hr, hs⟩
        rcases List.mem_cons.mp hr with rfl | hr
        · exact absurd ha hs
        · exact ⟨hr, hs⟩
    · rw [if_neg ha]
      constructor
      · intro h
        rcases List.mem_cons.mp h with rfl | h
        · exact ⟨List.mem_cons_self _ _, ha⟩
        · have h2 := (ih (a :: seen)).mp h
          exact ⟨List.mem_cons_of_mem _ h2.1,
            fun hs => h2.2 (List.mem_cons_of_mem _ hs)⟩
      · rintro ⟨hr, hs⟩
        rcases List.mem_cons.mp hr with rfl | hr
        · exact List.mem_cons_self _ _
        · by_cases hsa : s = a
          · subst hsa
            exact List.mem_cons_self _ _
          · refine List.mem_cons_of_mem _ ((ih (a :: seen)).mpr ⟨hr, ?_⟩)
            simp [hs, hsa]

theorem pick_best_field_top_authorized (fs : List EnrichedField)
    (t₀ t₁ : EnrichedField) (ts : List EnrichedField)
    (hoff : tierList .official (survivors fs) = [])
    (hauth : tierList .authorized (survivors fs) = t₀ :: t₁ :: ts) :
    pick_best_field fs = pickFromTier (t₀ :: t₁ :: ts) := by
  have hne : (survivors fs).isEmpty = false := by
    rw [List.isEmpty_eq_false]
    intro h
    rw [h] at hauth
    simp [tierList] at hauth
  unfold pick_best_field
  simp [hne, hoff, hauth]

theorem pick_best_field_top_third_party (fs : List EnrichedField)
    (t₀ t₁ : EnrichedField) (ts : List EnrichedField)
    (hoff : tierList .official (survivors fs) = [])
    (hauth : tierList .authorized (survivors fs) = [])
    (hthird : tierList .third_party (survivors fs) = t₀ :: t₁ :: ts) :
    pick_best_field fs = pickFromTier (t₀ :: t₁ :: ts) := by
  have hne : (survivors fs).isEmpty = false := by
    rw [List.isEmpty_eq_false]
    intro h
    rw [h] at hthird
    simp [tierList] at hthird
  unfold pick_best_field
  simp [hne, hoff, hauth, hthird]

/-- Counterexample to C3 as stated: with two disagreeing `official`
candidates sharing the top tier (and likewise two agreeing ones),
`_pick_best_field` returns the first candidate with its notes left
`none` — no disagreement or confirmed-by-N annotation is attached at
the `official` tier. -/
theorem c3_official_not_annotated_counterexample :
    pick_best_field
        [{ value := some (.s "2 years"), confidence := .official },
         { value := some (.s "3 years"), confidence := .official }] =
      { value := some (.s "2 years"), confidence := .official } ∧
    (pick_best_field
        [{ value := some (.s "2 years"), confidence := .official },
         { value := some (.s "3 years"), confidence := .official }]).notes
      = none ∧
    (pick_best_field
        [{ value := some (.s "2 years"), confidence := .official },
         { value := some (.s "2 years"), confidence := .official }]).notes
      = none := by
  decide

/-- C3 (amended): after discarding null-valued / `not_found`
candidates, when the highest surviving tier is `authorized` or
`third_party` and at least two candidates share it, agreement keeps the
first annotated "confirmed by N sources" and disagreement keeps the
first (in page-processing order) annotated with the full set of
disagreeing values; `official` and `inferred` top tiers return the
first candidate with its notes unchanged (see the counterexample). -/
theorem c3_agreement_annotation_amended
    (fs : List EnrichedField) (t₀ t₁ : EnrichedField)
    (ts : List EnrichedField) (tier : Confidence)
    (htier : tier = .authorized ∨ tier = .third_party)
    (hoff : tierList .official (survivors fs) = [])
    (hauth : tier = .third_party → tierList .authorized (survivors fs) = [])
    (htop : tierList tier (survivors fs) = t₀ :: t₁ :: ts) :
    ((dedupFS [] ((t₀ :: t₁ :: ts).map
        (fun c => pyStrOpt c.value))).length = 1 →
      pick_best_field fs =
        { t₀ with notes := some (confirmedNote (ts.length + 2)) }) ∧
    ((dedupFS [] ((t₀ :: t₁ :: ts).map
        (fun c => pyStrOpt c.value))).length ≠ 1 →
      pick_best_field fs =
        { t₀ with notes := some (disagreeNote (dedupFS []
          ((t₀ :: t₁ :: ts).map (fun c => pyStrOpt c.value)))) }) ∧
    (∀ s, s ∈ dedupFS [] ((t₀ :: t₁ :: ts).map (fun c => pyStrOpt c.value))
        ↔ s ∈ (t₀ :: t₁ :: ts).map (fun c => pyStrOpt c.value)) := by
  have hpick : pick_best_field fs = pickFromTier (t₀ :: t₁ :: ts) := by
    rcases htier with rfl | rfl
    · exact pick_best_field_top_authorized fs t₀ t₁ ts hoff htop
    · exact pick_best_field_top_third_party fs t₀ t₁ ts hoff (hauth rfl) htop
  refine ⟨?_, ?_, ?_⟩
  · intro h1
    rw [hpick]
    simp only [pickFromTier, List.isEmpty_cons, Bool.false_eq_true,
      if_false, h1, if_pos]
    simp
  · intro h1
    rw [hpick]
    simp only [pickFromTier, List.isEmpty_cons, Bool.false_eq_true,
      if_false, if_neg h1]
  · intro s
    rw [mem_dedupFS]
    simp

/-- Witness for C3 (amended): two agreeing `third_party` candidates
yield the first annotated "Confirmed by 2 sources"; two disagreeing
ones yield the first annotated with both values. -/
theorem c3_agreement_annotation_amended_witness :
    pick_best_field
        [{ value := some (.s "blue"), confidence := .third_party },
         { value := some (.s "blue"), confidence := .third_party }] =
      { value := some (.s "blue"), confidence := .third_party,
        notes := some (confirmedNote 2) } ∧
    pick_best_field
        [{ value := some (.s "red"), confidence := .third_party },
         { value := some (.s "blue"), confidence := .third_party }] =
      { value := some (.s "red"), confidence := .third_party,
        notes := some (disagreeNote ["red", "blue"]) } := by
  constructor
  · have h := (c3_agreement_annotation_amended
      [{ value := some (.s "blue"), confidence := .third_party },
       { value := some (.s "blue"), confidence := .third_party }]
      { value := some (.s "blue"), confidence := .third_party }
      { value := some (.s "blue"), confidence := .third_party }
      [] .third_party (Or.inr rfl) (by decide) (fun _ => by decide)
      (by decide)).1 (by decide)
    simpa using h
  · have h := (c3_agreement_annotation_amended
      [{ value := some (.s "red"), confidence := .third_party },
       { value := some (.s "blue"), confidence := .third_party }]
      { value := some (.s "red"), confidence := .third_party }
      { value := some (.s "blue"), confidence := .third_party }
      [] .third_party (Or.inr rfl) (by decide) (fun _ => by decide)
      (by decide)).2.1 (by decide)
    simpa using h

/-- Manufacturer-page document link used in the C7 instances. -/
def mfrDoc (fname : String) : PdfLink :=
  { title := "Manual", url := "https://brand.example.com/files/" ++ fname,
    source_page := "https://brand.example.com/product" }

/-- Third-party-page document link used in the C7 instances. -/
def tpDoc (fname : String) : PdfLink :=
  { title := "Manual", url := "https://shop.example.com/docs/" ++ fname,
    source_page := "https://shop.example.com/item" }

/-- The source-type map of the C7 instances. -/
def c7SourceTypes : List (String × String) :=
  [("https://brand.example.com/product", "manufacturer"),
   ("https://shop.example.com/item", "third_party")]

/-- Counterexample to C7 as stated: `manual_v1.pdf` and `manual_v2.pdf`
differ only by a version-number suffix, yet the normalization regex
requires at least six digits, so the two links get distinct keys and
both survive deduplication instead of collapsing to the manufacturer
entry. -/
theorem c7_short_version_suffix_counterexample :
    deduplicate_documents
        [mfrDoc "manual_v1.pdf", tpDoc "manual_v2.pdf"] c7SourceTypes =
      [mfrDoc "manual_v1.pdf", tpDoc "manual_v2.pdf"] ∧
    (deduplicate_documents
        [mfrDoc "manual_v1.pdf", tpDoc "manual_v2.pdf"] c7SourceTypes).length
      = 2 := by
  decide

/-- C7 (amended): two document links are grouped when their normalized
filename keys coincide — the stripped version/hash suffix must be an
underscore or hyphen, an optional `v`, and at least six digits (shorter
version suffixes such as `_v1` are not stripped) — and within a group a
manufacturer-sourced candidate survives over a third-party one,
regardless of input order. -/
theorem c7_doc_dedup_amended (p1 p2 : PdfLink)
    (st : List (String × String))
    (hk : docKey p1.url = docKey p2.url)
    (h1 : st.lookup p1.source_page = some "manufacturer")
    (h2 : st.lookup p2.source_page = some "third_party") :
    deduplicate_documents [p1, p2] st = [p1] ∧
    deduplicate_documents [p2, p1] st = [p1] := by
  have hr1 : candRank st p1 = 3 := by
    simp [candRank, h1, sourceDocRank]
  have hr2 : candRank st p2 = 1 := by
    simp [candRank, h2, sourceDocRank]
  constructor
  · unfold deduplicate_documents
    rw [List.map_cons, List.map_cons, List.map_nil, ← hk]
    have hkeys : dedupFS [] [docKey p1.url, docKey p1.url] =
        [docKey p1.url] := by
      simp [dedupFS]
    rw [hkeys, List.map_cons, List.map_nil]
    have hfil : List.filter (fun p => docKey p.url = docKey p1.url)
        [p1, p2] = [p1, p2] := by
      simp [hk.symm]
    rw [hfil]
    simp [maxByRank, hr1, hr2]
  · unfold deduplicate_documents
    rw [List.map_cons, List.map_cons, List.map_nil, hk]
    have hkeys : dedupFS [] [docKey p2.url, docKey p2.url] =
        [docKey p2.url] := by
      simp [dedupFS]
    rw [hkeys, List.map_cons, List.map_nil]
    have hfil : List.filter (fun p => docKey p.url = docKey p2.url)
        [p2, p1] = [p2, p1] := by
      simp [hk]
    rw [hfil]
    simp [maxByRank, hr1, hr2]

/-- Witness for C7 (amended): six-digit version suffixes `_v123456` and
`-234567` are stripped, the two links share one key, and the
manufacturer entry survives in either order. -/
theorem c7_doc_dedup_amended_witness :
    docKey (mfrDoc "manual_v123456.pdf").url =
      docKey (tpDoc "manual-234567.pdf").url ∧
    deduplicate_documents
        [mfrDoc "manual_v123456.pdf", tpDoc "manual-234567.pdf"]
        c7SourceTypes = [mfrDoc "manual_v123456.pdf"] ∧
    deduplicate_documents
        [tpDoc "manual-234567.pdf", mfrDoc "manual_v123456.pdf"]
        c7SourceTypes = [mfrDoc "manual_v123456.pdf"] := by
  have h := c7_doc_dedup_amended (mfrDoc "manual_v123456.pdf")
    (tpDoc "manual-234567.pdf") c7SourceTypes (by decide) (by decide)
    (by decide)
  exact ⟨by decide, h.1, h.2⟩

/-- What a surviving `check_url` result guarantees about its input. -/
theorem check_url_spec (probe : String → ProbeResult) (x : String)
    (p : String × Nat) (h : check_url probe x = some p) :
    p.1 = x ∧
    (∀ ct cl, probe x = .ok ct cl →
      strContains (strLower ct) "image" = true ∧
      strContains (strLower ct) "svg" = false ∧
      (0 < cl → MIN_IMAGE_SIZE_BYTES ≤ cl ∧ cl ≤ MAX_IMAGE_SIZE_BYTES)) := by
  unfold check_url at h
  cases hp : probe x with
  | failed =>
    rw [hp] at h
    injection h with h
    subst h
    exact ⟨rfl, by intro ct cl hcl; exact absurd hcl (by simp)⟩
  | ok ct cl =>
    rw [hp] at h
    simp only at h
    by_cases him : strContains (strLower ct) "image"
    · rw [if_neg (by simp [him])] at h
      by_cases hsvg : strContains (strLower ct) "svg"
      · rw [if_pos hsvg] at h
        exact absurd h (by simp)
      · rw [if_neg hsvg] at h
        by_cases hpos : 0 < cl
        · rw [if_pos hpos] at h
          by_cases hmin : cl < MIN_IMAGE_SIZE_BYTES
          · rw [if_pos hmin] at h
            exact absurd h (by simp)
          · rw [if_neg hmin] at h
            by_cases hmax : MAX_IMAGE_SIZE_BYTES < cl
            · rw [if_pos hmax] at h
              exact absurd h (by simp)
            · rw [if_neg hmax] at h
              injection h with h
              subst h
              refine ⟨rfl, ?_⟩
              intro ct2 cl2 h2
              injection h2 with e1 e2
              subst e1
              subst e2
              exact ⟨him, Bool.eq_false_iff.mpr hsvg,
                fun _ => ⟨Nat.le_of_not_lt hmin, Nat.le_of_not_lt hmax⟩⟩
        · rw [if_neg hpos] at h
          injection h with h
          subst h
          refine ⟨rfl, ?_⟩
          intro ct2 cl2 h2
          injection h2 with e1 e2
          subst e1
          subst e2
          exact ⟨him, Bool.eq_false_iff.mpr hsvg, fun hc => absurd hc hpos⟩
    · rw [if_pos (by simp [him])] at h
      exact absurd h (by simp)

/-- C8: the deterministic image filter keeps at most the configured
keep-count, sorts survivors by descending observed size, never keeps a
candidate whose positively-observed size is outside the byte-size
bounds (in particular never below the minimum), and provisionally keeps
any candidate whose probe fails outright. -/
theorem c8_image_filter_bounds (probe : String → ProbeResult)
    (image_urls : List String) :
    (filter_images_deterministic probe image_urls).length ≤
      MAX_IMAGES_TO_KEEP ∧
    (filter_images_pairs probe image_urls).Pairwise bySizeDesc ∧
    (∀ u ∈ filter_images_deterministic probe image_urls,
      ∀ ct cl, probe u = .ok ct cl →
        strContains (strLower ct) "image" = true ∧
        strContains (strLower ct) "svg" = false ∧
        (0 < cl → MIN_IMAGE_SIZE_BYTES ≤ cl ∧ cl ≤ MAX_IMAGE_SIZE_BYTES)) ∧
    (∀ u ∈ image_urls.take MAX_IMAGES_TO_CHECK, probe u = .failed →
      (u, 0) ∈ filter_images_pairs probe image_urls) := by
  refine ⟨?_, ?_, ?_, ?_⟩
  · unfold filter_images_deterministic
    split
    · simp
    · rw [List.length_map]
      exact (List.length_take_le _ _).trans (by norm_num)
  · exact List.sorted_insertionSort bySizeDesc _
  · intro u hu ct cl hp
    unfold filter_images_deterministic at hu
    rw [if_neg (by
      intro he
      rw [he] at hu
      simp [filter_images_pairs] at hu)] at hu
    rcases List.mem_map.mp hu with ⟨pair, hpair, hfst⟩
    have hmem : pair ∈ filter_images_pairs probe image_urls :=
      (List.take_sublist _ _).mem hpair
    have hmem2 : pair ∈ (image_urls.take MAX_IMAGES_TO_CHECK).filterMap
        (check_url probe) :=
      ((List.perm_insertionSort bySizeDesc _).mem_iff).mp hmem
    rcases List.mem_filterMap.mp hmem2 with ⟨x, _, hx⟩
    have hspec := check_url_spec probe x pair hx
    rw [hfst] at hspec
    exact hspec.2 ct cl (hspec.1 ▸ hp)
  · intro u hu hf
    have hx : check_url probe u = some (u, 0) := by
      unfold check_url
      rw [hf]
    refine ((List.perm_insertionSort bySizeDesc _).mem_iff).mpr ?_
    exact List.mem_filterMap.mpr ⟨u, hu, hx⟩

/-- A concrete probe for the C8 witness: one large image, one
thumbnail below the size floor, one flaky host, one HTML page. -/
def c8Probe : String → ProbeResult := fun u =>
  if u = "https://img.example.com/big.jpg" then .ok "image/jpeg" 500000
  else if u = "https://img.example.com/small.jpg" then .ok "image/jpeg" 1000
  else if u = "https://img.example.com/flaky.jpg" then .failed
  else .ok "text/html" 100000

/-- The candidate list for the C8 witness. -/
def c8Urls : List String :=
  ["https://img.example.com/small.jpg", "https://img.example.com/big.jpg",
   "https://img.example.com/flaky.jpg", "https://img.example.com/page.html"]

/-- Witness for C8: on the concrete candidate list the filter keeps the
big image then the provisionally-kept flaky one (descending size),
drops the thumbnail and the HTML page, and the theorem's bound and
failed-probe conclusions hold at this input. -/
theorem c8_image_filter_bounds_witness :
    filter_images_deterministic c8Probe c8Urls =
      ["https://img.example.com/big.jpg",
       "https://img.example.com/flaky.jpg"] ∧
    (filter_images_deterministic c8Probe c8Urls).length ≤
      MAX_IMAGES_TO_KEEP ∧
    ("https://img.example.com/flaky.jpg", 0) ∈
      filter_images_pairs c8Probe c8Urls := by
  refine ⟨by decide, (c8_image_filter_bounds c8Probe c8Urls).1, ?_⟩
  exact (c8_image_filter_bounds c8Probe c8Urls).2.2.2
    "https://img.example.com/flaky.jpg" (by decide) (by decide)

/-- The number of cached pages that pass the usable-markdown check. -/
def usableCount (pages : List GFPage) : Nat :=
  (pages.filter GFPage.usable).length

/-- Page-1 result of the C6 scenario: supplies only warranty. -/
def c6r1 : GapFillExtraction := { warranty_duration := "2 years" }

/-- Page-2 result of the C6 scenario: supplies net weight. -/
def c6r2 : GapFillExtraction :=
  { net_weight :=
      { value := some (.i 5), unit := some "kg",
        confidence := .third_party } }

/-- Cached markdown long enough to pass the 100-character check. -/
def c6md : String := String.mk (List.replicate 120 'a')

/-- First cached page of the C6 scenario. -/
def c6p1 : GFPage := { markdown := c6md, llm := some c6r1 }

/-- Second cached page of the C6 scenario. -/
def c6p2 : GFPage := { markdown := c6md, llm := some c6r2 }

set_option maxRecDepth 8192 in
/-- C6: the gap-fill loop accumulates page results in order and its
early exit fires only once every requested gap is filled: if it leaves
usable pages unconsulted then `all_gaps_filled` held at the stop, and
if the gaps were never all filled every usable page was consulted.  In
the scenario with gaps net_weight and warranty where page 1 supplies
only warranty, page 2 is still consulted before exit. -/
theorem c6_gap_fill_early_exit :
    (∀ (gaps : List String) (pages : List GFPage)
        (acc : List GapFillExtraction),
      ((gap_fill_loop gaps pages acc).2 < usableCount pages →
        all_gaps_filled gaps (gap_fill_loop gaps pages acc).1 = true) ∧
      (all_gaps_filled gaps (gap_fill_loop gaps pages acc).1 = false →
        (gap_fill_loop gaps pages acc).2 = usableCount pages)) ∧
    gap_fill_loop ["net_weight", "warranty"] [c6p1, c6p2] [] =
      ([c6r1, c6r2], 2) ∧
    all_gaps_filled ["net_weight", "warranty"] [c6r1] = false := by
  refine ⟨?_, by decide, by decide⟩
  intro gaps pages
  induction pages with
  | nil =>
    intro acc
    constructor
    · intro h
      simp [gap_fill_loop, usableCount] at h
    · intro _
      simp [gap_fill_loop, usableCount]
  | cons p rest ih =>
    intro acc
    by_cases hu : p.usable
    · cases hl : p.llm with
      | none =>
        have hloop : gap_fill_loop gaps (p :: rest) acc =
            ((gap_fill_loop gaps rest acc).1,
             (gap_fill_loop gaps rest acc).2 + 1) := by
          simp [gap_fill_loop, hu, hl]
        have huc : usableCount (p :: rest) = usableCount rest + 1 := by
          simp [usableCount, List.filter_cons, hu]
        rw [hloop, huc]
        constructor
        · intro h
          exact (ih acc).1 (by omega)
        · intro h
          have h2 := (ih acc).2 h
          omega
      | some res =>
        by_cases hf : all_gaps_filled gaps (acc ++ [res])
        · have hloop : gap_fill_loop gaps (p :: rest) acc =
              (acc ++ [res], 1) := by
            simp [gap_fill_loop, hu, hl, hf]
          rw [hloop]
          constructor
          · intro _
            exact hf
          · intro h
            rw [hf] at h
            exact absurd h (by simp)
        · have hloop : gap_fill_loop gaps (p :: rest) acc =
              ((gap_fill_loop gaps rest (acc ++ [res])).1,
               (gap_fill_loop gaps rest (acc ++ [res])).2 + 1) := by
            simp [gap_fill_loop, hu, hl, hf]
          have huc : usableCount (p :: rest) = usableCount rest + 1 := by
            simp [usableCount, List.filter_cons, hu]
          rw [hloop, huc]
          constructor
          · intro h
            exact (ih (acc ++ [res])).1 (by omega)
          · intro h
            have h2 := (ih (acc ++ [res])).2 h
            omega
    · have hloop : gap_fill_loop gaps (p :: rest) acc =
          gap_fill_loop gaps rest acc := by
        simp [gap_fill_loop, hu]
      have huc : usableCount (p :: rest) = usableCount rest := by
        simp [usableCount, List.filter_cons, hu]
      rw [hloop, huc]
      exact ih acc

/-- Witness for C6: on a one-page run whose single result leaves
net_weight unfilled, the loop reports as many consultations as there
are usable pages (no early exit happened). -/
theorem c6_gap_fill_early_exit_witness :
    (gap_fill_loop ["net_weight", "warranty"] [c6p1] []).2 =
      usableCount [c6p1] :=
  (c6_gap_fill_early_exit.1 ["net_weight", "warranty"] [c6p1] []).2
    (by decide)

/-! ### Projection lemmas for the correction steps -/

theorem corrColor_parts (m : EnrichedProduct) :
    (corrColor m).1.dimensions = m.dimensions ∧
    (corrColor m).1.descriptions = m.descriptions ∧
    (corrColor m).1.country_of_origin = m.country_of_origin ∧
    (corrColor m).1.warranty = m.warranty ∧
    (corrColor m).1.image_url = m.image_url := by
  unfold corrColor
  repeat' first | split | dsimp only
  all_goals exact ⟨rfl, rfl, rfl, rfl, rfl⟩

theorem corrCountry_parts (m : EnrichedProduct) :
    (corrCountry m).1.dimensions = m.dimensions ∧
    (corrCountry m).1.descriptions = m.descriptions ∧
    (corrCountry m).1.color = m.color ∧
    (corrCountry m).1.warranty = m.warranty ∧
    (corrCountry m).1.image_url = m.image_url := by
  unfold corrCountry
  repeat' first | split | dsimp only
  all_goals exact ⟨rfl, rfl, rfl, rfl, rfl⟩

theorem corrWeight_parts (m : EnrichedProduct) :
    (corrWeight m).1.descriptions = m.descriptions ∧
    (corrWeight m).1.color = m.color ∧
    (corrWeight m).1.country_of_origin = m.country_of_origin ∧
    (corrWeight m).1.warranty = m.warranty ∧
    (corrWeight m).1.image_url = m.image_url ∧
    (corrWeight m).1.dimensions.net = m.dimensions.net ∧
    (corrWeight m).1.dimensions.packaged.height =
      m.dimensions.packaged.height ∧
    (corrWeight m).1.dimensions.packaged.length =
      m.dimensions.packaged.length ∧
    (corrWeight m).1.dimensions.packaged.width =
      m.dimensions.packaged.width ∧
    (corrWeight m).1.dimensions.packaged.depth =
      m.dimensions.packaged.depth ∧
    (corrWeight m).1.dimensions.packaged.diameter =
      m.dimensions.packaged.diameter ∧
    (corrWeight m).1.dimensions.packaged.volume =
      m.dimensions.packaged.volume := by
  unfold corrWeight
  repeat' first | split | dsimp only
  all_goals exact ⟨rfl, rfl, rfl, rfl, rfl, rfl, rfl, rfl, rfl, rfl, rfl, rfl⟩

theorem corrDesc_parts (m : EnrichedProduct) :
    (corrDesc m).1.dimensions = m.dimensions ∧
    (corrDesc m).1.color = m.color ∧
    (corrDesc m).1.country_of_origin = m.country_of_origin ∧
    (corrDesc m).1.warranty = m.warranty ∧
    (corrDesc m).1.image_url = m.image_url := by
  unfold corrDesc
  repeat' first | split | dsimp only
  all_goals exact ⟨rfl, rfl, rfl, rfl, rfl⟩

/-- `apply_corrections` is the four steps composed in source order. -/
theorem apply_corrections_fst (m : EnrichedProduct) :
    (apply_corrections m).1 =
      (corrDesc (corrWeight (corrCountry (corrColor m).1).1).1).1 := rfl

/-- C5: for same-unit numeric weights with packaged lighter than net, a
shortfall below 5% of the heavier value or below the absolute floor
(0.5 kg, 500 otherwise) lifts packaged weight to the net weight with
tier `inferred` and an annotation; a larger shortfall leaves the
packaged weight untouched. -/
theorem c5_weight_shortfall (m : EnrichedProduct) (u : Option String)
    (nv pv : ℚ)
    (hn : m.dimensions.net.weight.value = some (.f nv))
    (hp : m.dimensions.packaged.weight.value = some (.f pv))
    (hun : m.dimensions.net.weight.unit = u)
    (hup : m.dimensions.packaged.weight.unit = u)
    (hlt : pv < nv) :
    ((nv - pv < nv * Rat.divInt 5 100 ∨
        nv - pv < (if u = some "kg" then Rat.divInt 1 2 else 500)) →
      (apply_corrections m).1.dimensions.packaged.weight.value =
          some (.f nv) ∧
      (apply_corrections m).1.dimensions.packaged.weight.confidence =
          .inferred ∧
      (apply_corrections m).1.dimensions.packaged.weight.notes ≠ none) ∧
    (¬ (nv - pv < nv * Rat.divInt 5 100 ∨
        nv - pv < (if u = some "kg" then Rat.divInt 1 2 else 500)) →
      (apply_corrections m).1.dimensions.packaged.weight =
        m.dimensions.packaged.weight) := by
  have m2dims : (corrCountry (corrColor m).1).1.dimensions = m.dimensions :=
    ((corrCountry_parts (corrColor m).1).1).trans (corrColor_parts m).1
  have hfinal : ∀ x : EnrichedProduct,
      (corrDesc x).1.dimensions.packaged.weight =
        x.dimensions.packaged.weight := by
    intro x
    rw [(corrDesc_parts x).1]
  rw [apply_corrections_fst]
  set m2 := (corrCountry (corrColor m).1).1 with hm2
  have hn2 : m2.dimensions.net.weight.value = some (.f nv) := by
    rw [m2dims, hn]
  have hp2 : m2.dimensions.packaged.weight.value = some (.f pv) := by
    rw [m2dims, hp]
  have hun2 : m2.dimensions.net.weight.unit = u := by rw [m2dims, hun]
  have hup2 : m2.dimensions.packaged.weight.unit = u := by rw [m2dims, hup]
  have hcw : corrWeight m2 =
      (if nv - pv < nv * Rat.divInt 5 100 ∨
          nv - pv < (if u = some "kg" then Rat.divInt 1 2 else 500) then
        ({ m2 with dimensions.packaged.weight :=
            { m2.dimensions.packaged.weight with
              value := some (.f nv)
              confidence := .inferred
              notes := some (lstripSemiSpace
                ((m2.dimensions.packaged.weight.notes.getD "") ++
                 "; auto-normalized: packaged was " ++ fmt3 (nv - pv) ++
                 " " ++ optStr m2.dimensions.net.weight.unit ++
                 " lighter than net")) } },
         ["packaged_weight: " ++ decimalStr pv ++ " → " ++
          decimalStr nv ++ " " ++ optStr m2.dimensions.net.weight.unit ++
          " (was " ++ fmt3 (nv - pv) ++ " " ++
          optStr m2.dimensions.net.weight.unit ++
          " lighter than net — normalized to net weight)"])
      else (m2, [])) := by
    unfold corrWeight
    rw [if_pos ⟨by rw [hn2]; rfl, by rw [hp2]; rfl,
      by rw [hun2, hup2]⟩]
    rw [hn2, hp2]
    simp only [Option.some_bind, toRat?]
    rw [if_pos hlt, hun2]
  constructor
  · intro hcond
    rw [hcw, if_pos hcond, hfinal]
    exact ⟨rfl, rfl, by simp⟩
  · intro hcond
    rw [hcw, if_neg hcond, hfinal, m2dims]

/-- The C5 witness product: net weight 1.0 kg, packaged 0.95 kg. -/
def c5Product : EnrichedProduct :=
  { dimensions :=
      { net :=
          { weight :=
              { value := some (.f 1), unit := some "kg",
                confidence := .official } }
        packaged :=
          { weight :=
              { value := some (.f (Rat.divInt 95 100)), unit := some "kg",
                confidence := .authorized } } } }

/-- Witness for C5: the 0.05 kg shortfall (exactly 5%, under the 0.5 kg
floor) is lifted to 1.0 kg, downgraded to `inferred`, annotated. -/
theorem c5_weight_shortfall_witness :
    (apply_corrections c5Product).1.dimensions.packaged.weight.value =
      some (.f 1) ∧
    (apply_corrections c5Product).1.dimensions.packaged.weight.confidence =
      .inferred ∧
    (apply_corrections c5Product).1.dimensions.packaged.weight.notes ≠
      none := by
  have h := (c5_weight_shortfall c5Product (some "kg") 1
    (Rat.divInt 95 100) rfl rfl rfl rfl
    (by rw [Rat.divInt_eq_div]; norm_num)).1
  exact h (by
    right
    rw [if_pos rfl, Rat.divInt_eq_div, Rat.divInt_eq_div]
    norm_num)

/-! ### C4: the null-value / not_found invariant -/

/-- The confidence-tagged fields of an `EnrichedProduct` outside the
description pair. -/
def coreFields (m : EnrichedProduct) : List EnrichedField :=
  [m.dimensions.net.height, m.dimensions.net.length,
   m.dimensions.net.width, m.dimensions.net.depth,
   m.dimensions.net.weight, m.dimensions.net.diameter,
   m.dimensions.net.volume,
   m.dimensions.packaged.height, m.dimensions.packaged.length,
   m.dimensions.packaged.width, m.dimensions.packaged.depth,
   m.dimensions.packaged.weight, m.dimensions.packaged.diameter,
   m.dimensions.packaged.volume,
   m.color, m.country_of_origin, m.image_url, m.warranty.duration]

/-- All confidence-tagged fields of an `EnrichedProduct`. -/
def productFields (m : EnrichedProduct) : List EnrichedField :=
  coreFields m ++
    [m.descriptions.short_description, m.descriptions.marketing_description]

/-- The record-level invariant of the spec: every confidence-tagged
field with a null value carries tier `not_found`. -/
def productInvariant (m : EnrichedProduct) : Prop :=
  ∀ f ∈ productFields m, invariantEF f

instance (m : EnrichedProduct) : Decidable (productInvariant m) := by
  unfold productInvariant
  infer_instance

theorem invariantEF_of_isSome {f : EnrichedField} (h : f.value.isSome) :
    invariantEF f := by
  intro hv
  rw [hv] at h
  exact absurd h (by simp)

theorem mem_survivors_isSome {f : EnrichedField} {l : List EnrichedField}
    (h : f ∈ survivors l) : f.value.isSome := by
  unfold survivors at h
  have h2 := List.of_mem_filter h
  simp at h2
  exact h2.1

theorem pickFromTier_value (t₀ : EnrichedField) (ts : List EnrichedField) :
    (pickFromTier (t₀ :: ts)).value = t₀.value := by
  cases ts with
  | nil => simp [pickFromTier]
  | cons a b =>
    simp only [pickFromTier]
    rw [if_neg (by simp)]
    split <;> rfl

/-- The merge engine's output always satisfies the invariant: it is
either a surviving candidate (whose value is non-null) with at most its
notes replaced, or the empty `not_found` field. -/
theorem pick_best_field_invariant (fields : List EnrichedField) :
    invariantEF (pick_best_field fields) := by
  unfold pick_best_field
  by_cases he : (survivors fields).isEmpty
  · rw [if_pos he]
    intro _
    rfl
  · rw [if_neg he]
    dsimp only
    cases ho : tierList .official (survivors fields) with
    | cons o os =>
      simp only [List.isEmpty_cons, Bool.not_false, if_pos, List.headD_cons]
      exact invariantEF_of_isSome (mem_survivors_isSome
        (List.mem_of_mem_filter (ho ▸ List.mem_cons_self o os)))
    | nil =>
      simp only [List.isEmpty_nil, Bool.not_true, Bool.false_eq_true,
        if_false]
      cases ha : tierList .authorized (survivors fields) with
      | cons a as =>
        simp only [List.isEmpty_cons, Bool.not_false, if_pos]
        refine invariantEF_of_isSome ?_
        rw [pickFromTier_value]
        exact mem_survivors_isSome
          (List.mem_of_mem_filter (ha ▸ List.mem_cons_self a as))
      | nil =>
        simp only [List.isEmpty_nil, Bool.not_true, Bool.false_eq_true,
          if_false]
        cases ht : tierList .third_party (survivors fields) with
        | cons t ts =>
          simp only [List.isEmpty_cons, Bool.not_false, if_pos]
          refine invariantEF_of_isSome ?_
          rw [pickFromTier_value]
          exact mem_survivors_isSome
            (List.mem_of_mem_filter (ht ▸ List.mem_cons_self t ts))
        | nil =>
          simp only [List.isEmpty_nil, Bool.not_true, Bool.false_eq_true,
            if_false]
          cases hi : tierList .inferred (survivors fields) with
          | cons i is =>
            simp only [List.isEmpty_cons, Bool.not_false, if_pos,
              List.headD_cons]
            exact invariantEF_of_isSome (mem_survivors_isSome
              (List.mem_of_mem_filter (hi ▸ List.mem_cons_self i is)))
          | nil =>
            intro _
            rfl

theorem first_valid_field_isSome {results : List GapFillExtraction}
    {get : GapFillExtraction → EnrichedField} {v : EnrichedField}
    (h : first_valid_field results get = some v) : v.value.isSome := by
  unfold first_valid_field at h
  rcases Option.map_eq_some'.mp h with ⟨r, hr, hv⟩
  have hp := List.find?_some hr
  simp at hp
  rw [← hv]
  exact hp.1

theorem mgfNetWeight_fields (results : List GapFillExtraction)
    (gaps : List String) (mf : EnrichedProduct × List String) :
    ∀ f ∈ productFields (mgfNetWeight results gaps mf).1,
      f ∈ productFields mf.1 ∨ f.value.isSome := by
  unfold mgfNetWeight
  repeat' first | split | dsimp only
  case _ v hv =>
    intro f hf
    simp only [productFields, coreFields, List.mem_append, List.mem_cons,
      List.not_mem_nil, or_false] at hf ⊢
    rcases hf with hf | hf
    · rcases hf with rfl | rfl | rfl | rfl | rfl | rfl | rfl | rfl | rfl |
        rfl | rfl | rfl | rfl | rfl | rfl | rfl | rfl | rfl
      all_goals first
        | exact Or.inr (first_valid_field_isSome hv)
        | (left; left; simp)
    · rcases hf with rfl | rfl
      all_goals (left; right; simp)
  all_goals exact fun f hf => Or.inl hf

theorem mgfPkgWeight_fields (results : List GapFillExtraction)
    (gaps : List String) (mf : EnrichedProduct × List String) :
    ∀ f ∈ productFields (mgfPkgWeight results gaps mf).1,
      f ∈ productFields mf.1 ∨ f.value.isSome := by
  unfold mgfPkgWeight
  repeat' first | split | dsimp only
  case _ v hv =>
    intro f hf
    simp only [productFields, coreFields, List.mem_append, List.mem_cons,
      List.not_mem_nil, or_false] at hf ⊢
    rcases hf with hf | hf
    · rcases hf with rfl | rfl | rfl | rfl | rfl | rfl | rfl | rfl | rfl |
        rfl | rfl | rfl | rfl | rfl | rfl | rfl | rfl | rfl
      all_goals first
        | exact Or.inr (first_valid_field_isSome hv)
        | (left; left; simp)
    · rcases hf with rfl | rfl
      all_goals (left; right; simp)
  all_goals exact fun f hf => Or.inl hf

theorem mgfPkgDims_fields (results : List GapFillExtraction)
    (gaps : List String) (mf : EnrichedProduct × List String) :
    ∀ f ∈ productFields (mgfPkgDims results gaps mf).1,
      f ∈ productFields mf.1 ∨ f.value.isSome := by
  unfold mgfPkgDims
  repeat' first | split | dsimp only
  all_goals intro f hf
  all_goals simp only [productFields, coreFields, List.mem_append,
    List.mem_cons, List.not_mem_nil, or_false] at hf ⊢
  all_goals rcases hf with hf | hf
  all_goals first
    | (rcases hf with rfl | rfl | rfl | rfl | rfl | rfl | rfl | rfl | rfl |
        rfl | rfl | rfl | rfl | rfl | rfl | rfl | rfl | rfl
       all_goals first
         | exact Or.inr (first_valid_field_isSome (by assumption))
         | (left; left; simp))
    | (rcases hf with rfl | rfl
       all_goals (left; right; simp))

theorem mgfWarranty_fields (results : List GapFillExtraction)
    (gaps : List String) (mf : EnrichedProduct × List String) :
    ∀ f ∈ productFields (mgfWarranty results gaps mf).1,
      f ∈ productFields mf.1 ∨ f.value.isSome := by
  unfold mgfWarranty
  repeat' first | split | dsimp only
  all_goals intro f hf
  all_goals simp only [productFields, coreFields, List.mem_append,
    List.mem_cons, List.not_mem_nil, or_false] at hf ⊢
  all_goals rcases hf with hf | hf
  all_goals first
    | (rcases hf with rfl | rfl | rfl | rfl | rfl | rfl | rfl | rfl | rfl |
        rfl | rfl | rfl | rfl | rfl | rfl | rfl | rfl | rfl
       all_goals first
         | exact Or.inr rfl
         | (left; left; simp))
    | (rcases hf with rfl | rfl
       all_goals (left; right; simp))

theorem mgfShortDesc_fields (results : List GapFillExtraction)
    (gaps : List String) (mf : EnrichedProduct × List String) :
    ∀ f ∈ productFields (mgfShortDesc results gaps mf).1,
      f ∈ productFields mf.1 ∨ f.value.isSome := by
  unfold mgfShortDesc
  repeat' first | split | dsimp only
  case _ r hr =>
    intro f hf
    simp only [productFields, coreFields, List.mem_append, List.mem_cons,
      List.not_mem_nil, or_false] at hf ⊢
    rcases hf with hf | hf
    · rcases hf with rfl | rfl | rfl | rfl | rfl | rfl | rfl | rfl | rfl |
        rfl | rfl | rfl | rfl | rfl | rfl | rfl | rfl | rfl
      all_goals (left; left; simp)
    · rcases hf with rfl | rfl
      · exact Or.inr rfl
      · left; right; simp
  all_goals exact fun f hf => Or.inl hf

theorem merge_gap_fill_invariant (m : EnrichedProduct)
    (gaps : List String) (results : List GapFillExtraction)
    (h : productInvariant m) :
    productInvariant (merge_gap_fill m gaps results).1 := by
  unfold merge_gap_fill
  intro f hf
  rcases mgfShortDesc_fields results gaps _ f hf with hf | hs
  rotate_left
  · exact invariantEF_of_isSome hs
  rcases mgfWarranty_fields results gaps _ f hf with hf | hs
  rotate_left
  · exact invariantEF_of_isSome hs
  rcases mgfPkgDims_fields results gaps _ f hf with hf | hs
  rotate_left
  · exact invariantEF_of_isSome hs
  rcases mgfPkgWeight_fields results gaps _ f hf with hf | hs
  rotate_left
  · exact invariantEF_of_isSome hs
  rcases mgfNetWeight_fields results gaps _ f hf with hf | hs
  rotate_left
  · exact invariantEF_of_isSome hs
  exact h f hf

theorem corrColor_fields (m : EnrichedProduct) :
    ∀ f ∈ productFields (corrColor m).1,
      f ∈ productFields m ∨ invariantEF f := by
  unfold corrColor
  repeat' first | split | dsimp only
  all_goals intro f hf
  all_goals simp only [productFields, coreFields, List.mem_append,
    List.mem_cons, List.not_mem_nil, or_false] at hf ⊢
  all_goals rcases hf with hf | hf
  all_goals first
    | (rcases hf with rfl | rfl | rfl | rfl | rfl | rfl | rfl | rfl | rfl |
        rfl | rfl | rfl | rfl | rfl | rfl | rfl | rfl | rfl
       all_goals first
         | (right; intro hv; rfl)
         | (right; exact invariantEF_of_isSome rfl)
         | (left; left; simp))
    | (rcases hf with rfl | rfl
       all_goals (left; right; simp))

theorem corrCountry_fields (m : EnrichedProduct) :
    ∀ f ∈ productFields (corrCountry m).1,
      f ∈ productFields m ∨ invariantEF f := by
  unfold corrCountry
  repeat' first | split | dsimp only
  all_goals intro f hf
  all_goals simp only [productFields, coreFields, List.mem_append,
    List.mem_cons, List.not_mem_nil, or_false] at hf ⊢
  all_goals rcases hf with hf | hf
  all_goals first
    | (rcases hf with rfl | rfl | rfl | rfl | rfl | rfl | rfl | rfl | rfl |
        rfl | rfl | rfl | rfl | rfl | rfl | rfl | rfl | rfl
       all_goals first
         | (right; intro hv; rfl)
         | (right; exact invariantEF_of_isSome rfl)
         | (left; left; simp))
    | (rcases hf with rfl | rfl
       all_goals (left; right; simp))

theorem corrWeight_fields (m : EnrichedProduct) :
    ∀ f ∈ productFields (corrWeight m).1,
      f ∈ productFields m ∨ invariantEF f := by
  unfold corrWeight
  repeat' first | split | dsimp only
  all_goals intro f hf
  all_goals simp only [productFields, coreFields, List.mem_append,
    List.mem_cons, List.not_mem_nil, or_false] at hf ⊢
  all_goals rcases hf with hf | hf
  all_goals first
    | (rcases hf with rfl | rfl | rfl | rfl | rfl | rfl | rfl | rfl | rfl |
        rfl | rfl | rfl | rfl | rfl | rfl | rfl | rfl | rfl
       all_goals first
         | (right; exact invariantEF_of_isSome rfl)
         | (left; left; simp))
    | (rcases hf with rfl | rfl
       all_goals (left; right; simp))

theorem corrDesc_coreFields (m : EnrichedProduct) :
    coreFields (corrDesc m).1 = coreFields m := by
  have hp := corrDesc_parts m
  unfold coreFields
  rw [hp.1, hp.2.1, hp.2.2.1, hp.2.2.2.1, hp.2.2.2.2]

/-- Counterexample to C4 as stated: a junk short description ("n/a",
tier third_party) is nulled by validation's junk removal while its
confidence tier is left at `third_party`, violating the invariant. -/
theorem c4_desc_junk_counterexample :
    (apply_corrections
        { descriptions :=
            { short_description :=
                { value := some (.s "n/a"),
                  confidence := .third_party } } }).1.descriptions.short_description.value
      = none ∧
    (apply_corrections
        { descriptions :=
            { short_description :=
                { value := some (.s "n/a"),
                  confidence := .third_party } } }).1.descriptions.short_description.confidence
      = .third_party ∧
    ¬ invariantEF (apply_corrections
        { descriptions :=
            { short_description :=
                { value := some (.s "n/a"),
                  confidence := .third_party } } }).1.descriptions.short_description := by
  decide

/-- C4 (amended): the merge engine's output, gap-fill merging, and the
corrections on the non-description fields (color and country junk
removal included) all preserve the invariant that a null value carries
tier `not_found`; description junk removal does not (it nulls the value
but keeps the prior tier — see the counterexample). -/
theorem c4_null_value_invariant_amended :
    (∀ fields, invariantEF (pick_best_field fields)) ∧
    (∀ (m : EnrichedProduct) (gaps : List String)
        (results : List GapFillExtraction), productInvariant m →
      productInvariant (merge_gap_fill m gaps results).1) ∧
    (∀ m : EnrichedProduct, productInvariant m →
      ∀ f ∈ coreFields (apply_corrections m).1, invariantEF f) := by
  refine ⟨pick_best_field_invariant, merge_gap_fill_invariant, ?_⟩
  intro m h f hf
  rw [apply_corrections_fst, corrDesc_coreFields] at hf
  have hf2 : f ∈ productFields (corrWeight (corrCountry (corrColor m).1).1).1 := by
    unfold productFields
    exact List.mem_append_left _ hf
  rcases corrWeight_fields _ f hf2 with hf3 | hi
  rotate_left
  · exact hi
  rcases corrCountry_fields _ f hf3 with hf4 | hi
  rotate_left
  · exact hi
  rcases corrColor_fields _ f hf4 with hf5 | hi
  rotate_left
  · exact hi
  exact h f hf5

/-- Witness for C4 (amended): gap-filling net weight into an empty
product record yields a record satisfying the invariant. -/
theorem c4_null_value_invariant_amended_witness :
    productInvariant
      (merge_gap_fill {} ["net_weight"]
        [{ net_weight :=
            { value := some (.i 2), unit := some "kg",
              confidence := .third_party } }]).1 :=
  c4_null_value_invariant_amended.2.1 {} ["net_weight"]
    [{ net_weight :=
        { value := some (.i 2), unit := some "kg",
          confidence := .third_party } }] (by decide)

/-! ### C9 / C10: unit normalization -/

theorem roundHalfEven_intCast (n : ℤ) : roundHalfEven (n : ℚ) = n := by
  unfold roundHalfEven
  simp only [Int.floor_intCast, sub_self]
  norm_num

theorem roundHalfEven_eq_of_lt {q : ℚ} {n : ℤ} (h1 : ⌊q⌋ = n)
    (h2 : q - n < 1 / 2) : roundHalfEven q = n := by
  unfold roundHalfEven
  rw [h1, if_pos h2]

/-- `round(q, k)` is the identity on rationals with at most `k`
decimal places. -/
theorem pyRound_eq_self {k : ℕ} {q : ℚ} (h : (q * 10 ^ k).den = 1) :
    pyRound k q = q := by
  unfold pyRound
  have h2 : (((q * 10 ^ k).num : ℤ) : ℚ) = q * 10 ^ k :=
    (Rat.den_eq_one_iff _).mp h
  have h3 : roundHalfEven (q * 10 ^ k) = (q * 10 ^ k).num := by
    conv_lhs => rw [← h2]
    exact roundHalfEven_intCast _
  rw [h3, h2]
  field_simp

/-- Evaluation lemma for `pyRound` at concrete rationals (the
round-down case). -/
theorem pyRound_eval {k : ℕ} {q r : ℚ} {n : ℤ} (hq : q * 10 ^ k = r)
    (h1 : (n : ℚ) ≤ r) (h2 : r < n + 1) (h3 : r - n < 1 / 2) :
    pyRound k q = n / 10 ^ k := by
  unfold pyRound
  rw [hq, roundHalfEven_eq_of_lt (Int.floor_eq_iff.mpr ⟨h1, h2⟩) h3]

theorem normalize_to_cm_canonical (q : ℚ) :
    normalize_to_cm q (some "cm") = pyRound 2 q := by
  unfold normalize_to_cm
  rw [show (cmConversions.lookup (pyUnitKey (some "cm"))).getD 1 = 1
    from rfl]
  dsimp only
  rw [mul_one]

theorem normalize_to_kg_canonical (q : ℚ) :
    normalize_to_kg q (some "kg") = pyRound 3 q := by
  unfold normalize_to_kg
  rw [show (kgConversions.lookup (pyUnitKey (some "kg"))).getD 1 = 1
    from rfl]
  dsimp only
  rw [mul_one]

theorem normalize_to_liters_canonical (q : ℚ) :
    normalize_to_liters q (some "L") = pyRound 3 q := by
  unfold normalize_to_liters
  rw [show (literConversions.lookup (pyUnitKey (some "L"))).getD 1 = 1
    from rfl]
  dsimp only
  rw [mul_one]

/-- What `normalize_field` does to a numeric field with a usable
unit: it stores the converted value and the canonical unit label. -/
theorem normalize_field_eval (f : EnrichedField) (v : ℚ) (tt : String)
    (hv : f.value = some (.f v)) (hu1 : f.unit ≠ none)
    (hu2 : f.unit ≠ some "") :
    (normalize_field f tt).value =
      (if tt = "length" then some (.f (normalize_to_cm v f.unit))
       else if tt = "weight" then some (.f (normalize_to_kg v f.unit))
       else if tt = "volume" then some (.f (normalize_to_liters v f.unit))
       else none) ∧
    (normalize_field f tt).unit =
      (if tt = "length" then some "cm"
       else if tt = "weight" then some "kg"
       else if tt = "volume" then some "L"
       else none) := by
  unfold normalize_field
  rw [if_neg (by simp [hv, hu1, hu2]), hv]
  simp only [toRat?]
  split_ifs <;> simp

/-- Counterexample to C9 as stated: normalizing 1.234 "cm" (already
canonical) rounds the value to 1.23 — normalization is identity only up
to rounding, not on every numeric value. -/
theorem c9_not_identity_counterexample :
    (normalize_field
        { value := some (.f (1.234 : ℚ)), unit := some "cm" }
        "length").value = some (.f (1.23 : ℚ)) ∧
    (1.23 : ℚ) ≠ (1.234 : ℚ) := by
  constructor
  · have h := (normalize_field_eval
      { value := some (.f (1.234 : ℚ)), unit := some "cm" }
      (1.234 : ℚ) "length" rfl (by simp) (by simp)).1
    rw [h, if_pos rfl, normalize_to_cm_canonical]
    have hr : pyRound 2 (1.234 : ℚ) = ((123 : ℤ) : ℚ) / 10 ^ 2 :=
      pyRound_eval (r := (123.4 : ℚ)) (by norm_num) (by norm_num)
        (by norm_num) (by norm_num)
    rw [hr]
    norm_num
  · norm_num

/-- C9 (amended): normalizing a value already carrying the canonical
unit (cm / kg / L) multiplies by factor 1 and rounds half-even at the
canonical precision (2 decimals for cm, 3 for kg and L); values with at
most that many decimal places are returned unchanged, and
`normalize_field` keeps the canonical unit label. -/
theorem c9_canonical_rounding_amended (q : ℚ) :
    normalize_to_cm q (some "cm") = pyRound 2 q ∧
    normalize_to_kg q (some "kg") = pyRound 3 q ∧
    normalize_to_liters q (some "L") = pyRound 3 q ∧
    ((q * 10 ^ 2).den = 1 → normalize_to_cm q (some "cm") = q) ∧
    ((q * 10 ^ 3).den = 1 → normalize_to_kg q (some "kg") = q) ∧
    ((q * 10 ^ 3).den = 1 → normalize_to_liters q (some "L") = q) ∧
    (∀ f : EnrichedField, f.value = some (.f q) → f.unit = some "cm" →
      (normalize_field f "length").value = some (.f (pyRound 2 q)) ∧
      (normalize_field f "length").unit = some "cm") := by
  refine ⟨normalize_to_cm_canonical q, normalize_to_kg_canonical q,
    normalize_to_liters_canonical q, ?_, ?_, ?_, ?_⟩
  · intro h
    rw [normalize_to_cm_canonical, pyRound_eq_self h]
  · intro h
    rw [normalize_to_kg_canonical, pyRound_eq_self h]
  · intro h
    rw [normalize_to_liters_canonical, pyRound_eq_self h]
  · intro f hv hu
    have h := normalize_field_eval f q "length" hv (by simp [hu])
      (by simp [hu])
    rw [h.1, h.2, if_pos rfl, if_pos rfl, hu, normalize_to_cm_canonical]
    exact ⟨rfl, rfl⟩

/-- Witness for C9 (amended): 12.5 "cm" normalizes to 12.5 unchanged. -/
theorem c9_canonical_rounding_amended_witness :
    normalize_to_cm (12.5 : ℚ) (some "cm") = (12.5 : ℚ) :=
  (c9_canonical_rounding_amended (12.5 : ℚ)).2.2.2.1
    (by rw [show (12.5 : ℚ) * 10 ^ 2 = 1250 by norm_num]; rfl)

/-- C10: a unit string missing from the conversion tables gets factor
1.0 — the numeric value passes through (up to canonical rounding) and
`normalize_field` relabels the unit as canonical, silently
reinterpreting unrecognized units as already-canonical. -/
theorem c10_unknown_unit_reinterpreted (v : ℚ) (u : String)
    (hne : u ≠ "")
    (hcm : cmConversions.lookup (strTrim (strLower u)) = none)
    (hkg : kgConversions.lookup (strTrim (strLower u)) = none)
    (hl : literConversions.lookup (strTrim (strLower u)) = none) :
    normalize_to_cm v (some u) = pyRound 2 v ∧
    normalize_to_kg v (some u) = pyRound 3 v ∧
    normalize_to_liters v (some u) = pyRound 3 v ∧
    (∀ f : EnrichedField, f.value = some (.f v) → f.unit = some u →
      ((normalize_field f "length").value = some (.f (pyRound 2 v)) ∧
       (normalize_field f "length").unit = some "cm") ∧
      ((normalize_field f "weight").value = some (.f (pyRound 3 v)) ∧
       (normalize_field f "weight").unit = some "kg") ∧
      ((normalize_field f "volume").value = some (.f (pyRound 3 v)) ∧
       (normalize_field f "volume").unit = some "L")) := by
  have hkey : pyUnitKey (some u) = strTrim (strLower u) := by
    unfold pyUnitKey
    dsimp only
    rw [if_neg hne]
  have h1 : normalize_to_cm v (some u) = pyRound 2 v := by
    unfold normalize_to_cm
    rw [hkey, hcm]
    simp [mul_one]
  have h2 : normalize_to_kg v (some u) = pyRound 3 v := by
    unfold normalize_to_kg
    rw [hkey, hkg]
    simp [mul_one]
  have h3 : normalize_to_liters v (some u) = pyRound 3 v := by
    unfold normalize_to_liters
    rw [hkey, hl]
    simp [mul_one]
  refine ⟨h1, h2, h3, ?_⟩
  intro f hv hu
  have hcmf := normalize_field_eval f v "length" hv (by simp [hu])
    (by simp [hu, hne])
  have hkgf := normalize_field_eval f v "weight" hv (by simp [hu])
    (by simp [hu, hne])
  have hlf := normalize_field_eval f v "volume" hv (by simp [hu])
    (by simp [hu, hne])
  refine ⟨⟨?_, ?_⟩, ⟨?_, ?_⟩, ⟨?_, ?_⟩⟩
  · rw [hcmf.1, if_pos rfl, hu, h1]
  · rw [hcmf.2, if_pos rfl]
  · rw [hkgf.1, if_neg (by decide), if_pos rfl, hu, h2]
  · rw [hkgf.2, if_neg (by decide), if_pos rfl]
  · rw [hlf.1, if_neg (by decide), if_neg (by decide), if_pos rfl, hu, h3]
  · rw [hlf.2, if_neg (by decide), if_neg (by decide), if_pos rfl]

/-- Witness for C10: the unrecognized unit "t" (tonnes) passes 2.5
through as 2.5 and the field is relabelled "kg". -/
theorem c10_unknown_unit_reinterpreted_witness :
    normalize_to_kg (2.5 : ℚ) (some "t") = (2.5 : ℚ) ∧
    (normalize_field
        { value := some (.f (2.5 : ℚ)), unit := some "t" }
        "weight").value = some (.f (2.5 : ℚ)) ∧
    (normalize_field
        { value := some (.f (2.5 : ℚ)), unit := some "t" }
        "weight").unit = some "kg" := by
  have h := c10_unknown_unit_reinterpreted (2.5 : ℚ) "t" (by decide)
    (by decide) (by decide) (by decide)
  have hr : pyRound 3 (2.5 : ℚ) = (2.5 : ℚ) :=
    pyRound_eq_self (by rw [show (2.5 : ℚ) * 10 ^ 3 = 2500 by norm_num]; rfl)
  have hf := h.2.2.2 { value := some (.f (2.5 : ℚ)), unit := some "t" }
    rfl rfl
  refine ⟨?_, ?_, hf.2.1.2⟩
  · rw [h.2.1, hr]
  · rw [hf.2.1.1, hr]

end Shoppster
